import Mathlib

/-!
Verification of the BudgetClaw provider-synchronization engine.

This file gives a shallow embedding of the core data model and operations of
the BudgetClaw personal-finance aggregator:

* the SQLite ledger tables (`accounts`, `transactions`, `portfolio_holdings`,
  `provider_connections`) as lists of row records, with the uniqueness
  constraints of the migration-1 schema modelled explicitly;
* the reconciliation engine `syncConnection` (tools/connections.ts), including
  the write trace it performs against the database;
* `removeConnection` (tools/connections.ts) and `deleteAccount`
  (tools/accounts/index.ts), with the foreign-key actions of the schema
  (`ON DELETE CASCADE` for transactions/holdings, `ON DELETE SET NULL` for
  `accounts.connection_id`);
* the Plaid cursor-draining provider (providers/plaid `getTransactions`), the
  Finicity date-range provider (providers/finicity/index.ts), and the CSV
  provider together with `importCsv` (tools/import-export/index.ts);
* the link orchestration duplicate paths `completePlaidLink`
  (tools/connections/plaid-link.ts) and `linkCoinbase`
  (tools/connections/coinbase-link.ts).

External-runtime effects (the OS keychain, `crypto.randomUUID`, JavaScript
`Date` parsing/formatting, `parseFloat`, upstream HTTP endpoints) are modelled
as explicit environment parameters; machine `REAL` amounts are modelled as
rationals (the embedded code only stores, negates and compares them).
-/

set_option linter.unusedVariables false

namespace BudgetClaw

/-- A row of the `accounts` table (migration 1 plus the `connection_id`
column added by migration 2). `type_` is the SQL column `type`. -/
structure AccountRow where
  id : String
  name : String
  institution : Option String
  type_ : String
  currency : String
  balance : Option Rat
  source : String
  external_id : Option String
  is_active : Nat
  connection_id : Option String
  created_at : String
  updated_at : String
deriving Repr, DecidableEq

/-- A row of the `transactions` table. `type_` is the SQL column `type`. -/
structure TxRow where
  id : String
  account_id : String
  date : String
  amount : Rat
  currency : String
  description : Option String
  merchant : Option String
  category : Option String
  subcategory : Option String
  type_ : Option String
  source : String
  external_id : Option String
  pending : Nat
  notes : Option String
  created_at : String
  updated_at : String
deriving Repr, DecidableEq

/-- A row of the `portfolio_holdings` table. -/
structure HoldingRow where
  id : String
  account_id : String
  symbol : String
  name : Option String
  quantity : Rat
  price : Option Rat
  value : Option Rat
  currency : String
  asset_type : Option String
  price_source : Option String
  price_as_of : Option String
  created_at : String
  updated_at : String
deriving Repr, DecidableEq

/-- A row of the `provider_connections` table. -/
structure ProviderConnectionRow where
  id : String
  provider : String
  institution_id : Option String
  institution_name : Option String
  keychain_key : String
  item_id : Option String
  cursor : Option String
  last_synced_at : Option String
  created_at : String
  updated_at : String
deriving Repr, DecidableEq

/-- The local ledger: the four tables the sync engine touches. -/
structure DB where
  accounts : List AccountRow
  transactions : List TxRow
  holdings : List HoldingRow
  connections : List ProviderConnectionRow
deriving Repr, DecidableEq

/-! ### Provider interface (providers/interface.ts) -/

/-- `RawAccount` from providers/interface.ts. -/
structure RawAccount where
  external_id : String
  name : String
  institution : Option String
  type_ : String
  currency : Option String
  balance : Option Rat
deriving Repr, DecidableEq

/-- `RawTransaction` from providers/interface.ts. The optional `pending`
field is only ever read through JavaScript truthiness (`tx.pending ? 1 : 0`),
so it is modelled as a `Bool` with `false` for absent. -/
structure RawTransaction where
  external_id : String
  account_external_id : Option String
  date : String
  amount : Rat
  currency : Option String
  description : Option String
  merchant : Option String
  category : Option String
  subcategory : Option String
  type_ : Option String
  pending : Bool
  notes : Option String
deriving Repr, DecidableEq

/-- `RawBalance` from providers/interface.ts. -/
structure RawBalance where
  account_external_id : String
  balance : Rat
  currency : Option String
deriving Repr, DecidableEq

/-- The result shape of `DataProvider.getTransactions`. -/
structure TxSyncResult where
  added : List RawTransaction
  modified : List RawTransaction
  removed : List String
  nextCursor : String
deriving Repr, DecidableEq

/-- A `DataProvider` instance: each capability either yields a value or
throws (modelled as `Except String`). `getTransactions` is a function of the
cursor it is handed. `disconnect` is an optional capability. -/
structure DataProvider where
  getAccounts : Except String (List RawAccount)
  getTransactions : Option String → Except String TxSyncResult
  getBalances : Except String (List RawBalance)
  disconnect : Option (Except String Unit)

/-- Connection metadata handed to a provider factory (providers/registry.ts). -/
structure ProviderConnectionMeta where
  item_id : Option String
  institution_id : Option String
  institution_name : Option String
deriving Repr, DecidableEq

/-- The ambient effects `syncConnection` draws on: the OS keychain lookup,
the provider registry, the `crypto.randomUUID` supply (indexed by how many
ids have been generated so far in the call) and the `new Date().toISOString()`
timestamp taken at the top of the sync. -/
structure SyncEnv where
  getCredential : String → Option String
  registryCreate : String → String → ProviderConnectionMeta → Except String DataProvider
  uuid : Nat → String
  ts : String

/-- One database write performed by `syncConnection`, in program order. -/
inductive DbWrite where
  | accountInsert (id : String)
  | accountUpdate (id : String)
  | txInsert (id : String) (inserted : Bool)
  | txUpdate (account_id : String) (external_id : String) (changes : Nat)
  | txDelete (source : String) (external_id : String) (changes : Nat)
  | balanceUpdate (account_id : String)
  | connUpdate (id : String) (cursor : String) (ts : String)
deriving Repr, DecidableEq

/-- The aggregate result returned by `syncConnection`. -/
structure SyncConnectionResult where
  provider : String
  institution_name : Option String
  accounts_synced : Nat
  transactions_added : Nat
  transactions_modified : Nat
  transactions_removed : Nat
  last_synced_at : String
deriving Repr, DecidableEq

/-! ### The reconciliation engine `syncConnection` (tools/connections.ts) -/

/-- `findAccountStmt`: `SELECT id FROM accounts WHERE source = ? AND
external_id = ?` — the first matching row in table order. -/
def findAccountBy (accounts : List AccountRow) (source ext : String) :
    Option AccountRow :=
  accounts.find? (fun a => a.source == source && a.external_id == some ext)

/-- `updateAccountStmt`: update the mutable account fields in place by id. -/
def updateAccountRun (accounts : List AccountRow) (raw : RawAccount)
    (ts id0 : String) : List AccountRow :=
  accounts.map (fun a =>
    if a.id == id0 then
      { a with name := raw.name, institution := raw.institution,
               type_ := raw.type_, currency := raw.currency.getD "USD",
               balance := raw.balance, updated_at := ts }
    else a)

/-- State threaded through the step-4 account reconciliation loop: the live
`accounts` table, the in-memory external-id-to-local-id map (newest binding
first, as a JavaScript `Map` whose `set` overrides), the `randomUUID` call
counter, the `accounts_synced` counter and the write trace. -/
structure AccSyncState where
  accounts : List AccountRow
  idMap : List (String × String)
  counter : Nat
  synced : Nat
  writes : List DbWrite
deriving Repr

/-- One iteration of the step-4 account loop: upsert one raw account by
`(source, external_id)`. A fresh insert leaves `connection_id` NULL (the
INSERT statement does not list that column). -/
def accountStep (provider ts : String) (uuid : Nat → String)
    (s : AccSyncState) (raw : RawAccount) : AccSyncState :=
  match findAccountBy s.accounts provider raw.external_id with
  | some existing =>
      { s with accounts := updateAccountRun s.accounts raw ts existing.id,
               idMap := (raw.external_id, existing.id) :: s.idMap,
               synced := s.synced + 1,
               writes := s.writes ++ [DbWrite.accountUpdate existing.id] }
  | none =>
      let accountId := uuid s.counter
      { accounts := s.accounts ++ [{
          id := accountId, name := raw.name, institution := raw.institution,
          type_ := raw.type_, currency := raw.currency.getD "USD",
          balance := raw.balance, source := provider,
          external_id := some raw.external_id, is_active := 1,
          connection_id := none, created_at := ts, updated_at := ts }],
        idMap := (raw.external_id, accountId) :: s.idMap,
        counter := s.counter + 1, synced := s.synced + 1,
        writes := s.writes ++ [DbWrite.accountInsert accountId] }

/-- Whether `row` collides with `t` on the `UNIQUE(account_id, external_id)`
constraint of the transactions table (SQLite treats NULL external ids as
never conflicting). -/
def sameTxKey (t row : TxRow) : Bool :=
  t.account_id == row.account_id &&
    (match t.external_id, row.external_id with
     | some e1, some e2 => e1 == e2
     | _, _ => false)

/-- `INSERT OR IGNORE INTO transactions`: appends the row unless it collides
on the primary key or on `UNIQUE(account_id, external_id)`; returns the new
table and `result.changes`. -/
def insertTxOrIgnore (txs : List TxRow) (row : TxRow) : List TxRow × Nat :=
  if txs.any (fun t => t.id == row.id || sameTxKey t row) then (txs, 0)
  else (txs ++ [row], 1)

/-- `const accountId = tx.account_external_id ? accountIdMap.get(...) :
undefined; if (!accountId) continue;` — both the field and the mapped value
go through JavaScript truthiness, so empty strings fail the check. -/
def resolveAccountId (idMap : List (String × String)) (ext : Option String) :
    Option String :=
  match ext with
  | none => none
  | some e =>
      if e == "" then none
      else match idMap.lookup e with
           | none => none
           | some a => if a == "" then none else some a

/-- State threaded through the step-5 `added` loop. -/
structure AddedTxState where
  txs : List TxRow
  counter : Nat
  count : Nat
  writes : List DbWrite
deriving Repr

/-- One iteration of the `added` loop: resolve the owning account through the
per-pass map, then `INSERT OR IGNORE`, counting a success only when
`result.changes > 0`. The `randomUUID` call happens only on the resolved
path (the `continue` fires first). -/
def addedTxStep (provider ts : String) (uuid : Nat → String)
    (idMap : List (String × String)) (s : AddedTxState)
    (tx : RawTransaction) : AddedTxState :=
  match resolveAccountId idMap tx.account_external_id with
  | none => s
  | some accountId =>
      let rowId := uuid s.counter
      let row : TxRow :=
        { id := rowId, account_id := accountId, date := tx.date,
          amount := tx.amount, currency := tx.currency.getD "USD",
          description := tx.description, merchant := tx.merchant,
          category := tx.category, subcategory := tx.subcategory,
          type_ := tx.type_, source := provider,
          external_id := some tx.external_id,
          pending := if tx.pending then 1 else 0, notes := tx.notes,
          created_at := ts, updated_at := ts }
      let inserted := insertTxOrIgnore s.txs row
      { txs := inserted.1, counter := s.counter + 1,
        count := s.count + (if inserted.2 > 0 then 1 else 0),
        writes := s.writes ++ [DbWrite.txInsert rowId (inserted.2 > 0)] }

/-- `updateTxStmt`: `UPDATE transactions SET ... WHERE account_id = ? AND
external_id = ?`; `changes` counts every matched row. -/
def updateTxRun (txs : List TxRow) (tx : RawTransaction)
    (ts accountId : String) : List TxRow × Nat :=
  let hit := fun (t : TxRow) =>
    t.account_id == accountId && t.external_id == some tx.external_id
  (txs.map (fun t =>
      if hit t then
        { t with date := tx.date, amount := tx.amount,
                 description := tx.description, merchant := tx.merchant,
                 category := tx.category, subcategory := tx.subcategory,
                 type_ := tx.type_,
                 pending := if tx.pending then 1 else 0, notes := tx.notes,
                 updated_at := ts }
      else t),
   (txs.filter hit).length)

/-- State threaded through the step-5 `modified` loop. -/
structure ModifiedTxState where
  txs : List TxRow
  count : Nat
  writes : List DbWrite
deriving Repr

/-- One iteration of the `modified` loop. -/
def modifiedTxStep (ts : String) (idMap : List (String × String))
    (s : ModifiedTxState) (tx : RawTransaction) : ModifiedTxState :=
  match resolveAccountId idMap tx.account_external_id with
  | none => s
  | some accountId =>
      let updated := updateTxRun s.txs tx ts accountId
      { txs := updated.1,
        count := s.count + (if updated.2 > 0 then 1 else 0),
        writes := s.writes ++
          [DbWrite.txUpdate accountId tx.external_id updated.2] }

/-- `deleteTxStmt`: `DELETE FROM transactions WHERE source = ? AND
external_id = ?`; returns the surviving rows and `changes`. -/
def deleteTxRun (txs : List TxRow) (source externalId : String) :
    List TxRow × Nat :=
  let keep := txs.filter (fun t =>
    !(t.source == source && t.external_id == some externalId))
  (keep, txs.length - keep.length)

/-- State threaded through the step-5 `removed` loop. -/
structure RemovedTxState where
  txs : List TxRow
  count : Nat
  writes : List DbWrite
deriving Repr

/-- One iteration of the `removed` loop. -/
def removedTxStep (provider : String) (s : RemovedTxState)
    (externalId : String) : RemovedTxState :=
  let deleted := deleteTxRun s.txs provider externalId
  { txs := deleted.1,
    count := s.count + (if deleted.2 > 0 then 1 else 0),
    writes := s.writes ++ [DbWrite.txDelete provider externalId deleted.2] }

/-- One iteration of the step-6 balance loop: `accountIdMap.get(...)`, then
`if (accountId)` (truthiness), then `UPDATE accounts SET balance = ...`. -/
def balanceStep (ts : String) (idMap : List (String × String))
    (s : List AccountRow × List DbWrite) (bal : RawBalance) :
    List AccountRow × List DbWrite :=
  match idMap.lookup bal.account_external_id with
  | none => s
  | some accountId =>
      if accountId == "" then s
      else
        (s.1.map (fun a =>
           if a.id == accountId then
             { a with balance := some bal.balance, updated_at := ts }
           else a),
         s.2 ++ [DbWrite.balanceUpdate accountId])

/-- Step 7: `UPDATE provider_connections SET cursor = ?, last_synced_at = ?,
updated_at = ? WHERE id = ?`. -/
def updateConnRun (conns : List ProviderConnectionRow)
    (id cursor ts : String) : List ProviderConnectionRow :=
  conns.map (fun c =>
    if c.id == id then
      { c with cursor := some cursor, last_synced_at := some ts,
               updated_at := ts }
    else c)

/-- The whole step-4 account reconciliation loop. -/
def syncAccountsFold (provider ts : String) (uuid : Nat → String)
    (accounts : List AccountRow) (raws : List RawAccount) : AccSyncState :=
  raws.foldl (accountStep provider ts uuid)
    { accounts := accounts, idMap := [], counter := 0, synced := 0,
      writes := [] }

/-- The whole step-5 `added` loop. -/
def syncAddedFold (provider ts : String) (uuid : Nat → String)
    (idMap : List (String × String)) (txs : List TxRow) (counter : Nat)
    (added : List RawTransaction) : AddedTxState :=
  added.foldl (addedTxStep provider ts uuid idMap)
    { txs := txs, counter := counter, count := 0, writes := [] }

/-- The whole step-5 `modified` loop. -/
def syncModifiedFold (ts : String) (idMap : List (String × String))
    (txs : List TxRow) (modified : List RawTransaction) : ModifiedTxState :=
  modified.foldl (modifiedTxStep ts idMap)
    { txs := txs, count := 0, writes := [] }

/-- The whole step-5 `removed` loop. -/
def syncRemovedFold (provider : String) (txs : List TxRow)
    (removed : List String) : RemovedTxState :=
  removed.foldl (removedTxStep provider) { txs := txs, count := 0, writes := [] }

/-- The whole step-6 balance loop. -/
def syncBalancesFold (ts : String) (idMap : List (String × String))
    (accounts : List AccountRow) (balances : List RawBalance) :
    List AccountRow × List DbWrite :=
  balances.foldl (balanceStep ts idMap) (accounts, ([] : List DbWrite))

/-- The reconciliation engine `syncConnection` of tools/connections.ts.
Returns the database as left behind (writes before a thrown error persist —
there is no enclosing SQL transaction), the ordered write trace, and either
the thrown error message or the aggregate result. -/
def syncConnection (db : DB) (id : String) (env : SyncEnv) :
    DB × List DbWrite × Except String SyncConnectionResult :=
  match db.connections.find? (fun c => c.id == id) with
  | none => (db, [], .error ("Connection \"" ++ id ++ "\" not found"))
  | some conn =>
    match env.getCredential conn.keychain_key with
    | none => (db, [], .error ("No credential found in keychain for connection \""
        ++ id ++ "\". Re-link the account."))
    | some credential =>
      match env.registryCreate conn.provider credential
          { item_id := conn.item_id, institution_id := conn.institution_id,
            institution_name := conn.institution_name } with
      | .error e => (db, [], .error e)
      | .ok provider =>
        match provider.getAccounts with
        | .error e => (db, [], .error e)
        | .ok rawAccounts =>
          let accState := syncAccountsFold conn.provider env.ts env.uuid
            db.accounts rawAccounts
          let db1 : DB := { db with accounts := accState.accounts }
          match provider.getTransactions conn.cursor with
          | .error e => (db1, accState.writes, .error e)
          | .ok fetched =>
            let addedState := syncAddedFold conn.provider env.ts env.uuid
              accState.idMap db1.transactions accState.counter fetched.added
            let modState := syncModifiedFold env.ts accState.idMap
              addedState.txs fetched.modified
            let remState := syncRemovedFold conn.provider modState.txs
              fetched.removed
            let db2 : DB := { db1 with transactions := remState.txs }
            match provider.getBalances with
            | .error e =>
                (db2, accState.writes ++ addedState.writes ++ modState.writes
                  ++ remState.writes, .error e)
            | .ok balances =>
              let balResult := syncBalancesFold env.ts accState.idMap
                db2.accounts balances
              let db3 : DB := { db2 with accounts := balResult.1 }
              let db4 : DB := { db3 with
                connections := updateConnRun db3.connections id
                  fetched.nextCursor env.ts }
              (db4,
               accState.writes ++ addedState.writes ++ modState.writes
                 ++ remState.writes ++ balResult.2
                 ++ [DbWrite.connUpdate id fetched.nextCursor env.ts],
               .ok { provider := conn.provider,
                     institution_name := conn.institution_name,
                     accounts_synced := accState.synced,
                     transactions_added := addedState.count,
                     transactions_modified := modState.count,
                     transactions_removed := remState.count,
                     last_synced_at := env.ts })

/-! ### Schema-level uniqueness constraints (db/migrations.ts, migration 1)

Migration 1 declares `UNIQUE(account_id, external_id)` on `transactions`
(with SQLite's NULL semantics) and a bare `TEXT PRIMARY KEY` on both tables;
`accounts` carries no further uniqueness constraint. -/

/-- The `transactions` table satisfies its schema constraints: distinct
primary keys, and no two rows collide on `UNIQUE(account_id, external_id)`
(NULL external ids never collide). -/
def txTableOk : List TxRow → Bool
  | [] => true
  | t :: rest =>
      rest.all (fun t2 => t.id != t2.id && !(sameTxKey t t2)) && txTableOk rest

/-- The `accounts` table satisfies its schema constraints: distinct primary
keys only — migration 1 declares no uniqueness on `(source, external_id)`. -/
def accountsTableOk : List AccountRow → Bool
  | [] => true
  | a :: rest => rest.all (fun a2 => a.id != a2.id) && accountsTableOk rest

/-! ### `removeConnection` (tools/connections.ts) and the FK actions -/

/-- Deleting a `provider_connections` row fires the migration-2 foreign key
`accounts.connection_id REFERENCES provider_connections(id) ON DELETE SET
NULL`: owned accounts are kept, with `connection_id` cleared. -/
def deleteConnectionRow (db : DB) (cid : String) : DB :=
  { db with
      connections := db.connections.filter (fun c => !(c.id == cid)),
      accounts := db.accounts.map (fun a =>
        if a.connection_id == some cid then { a with connection_id := none }
        else a) }

/-- The credential-store and provider effects `removeConnection` and
`deleteAccount` draw on. Each call either succeeds or throws. -/
structure RemovalEnv where
  getCredential : Except String (Option String)
  deleteCredential : Except String Bool
  registryCreate : String → String → ProviderConnectionMeta → Except String DataProvider

/-- `removeConnection` of tools/connections.ts: look the connection up,
best-effort delete its credential (failures swallowed), then delete the row.
Only the `provider_connections` delete (with its FK action) touches the
database. -/
def removeConnection (db : DB) (id : String) (env : RemovalEnv) :
    DB × Except String Bool :=
  match db.connections.find? (fun c => c.id == id) with
  | none => (db, .error ("Connection \"" ++ id ++ "\" not found"))
  | some _ =>
      -- `try { await deleteCredential(...) } catch {}` — outcome ignored
      let db2 := deleteConnectionRow db id
      (db2, .ok (decide (db.connections.length ≠ db2.connections.length)))

/-! ### `deleteAccount` (tools/accounts/index.ts) -/

/-- The result record of `deleteAccount`. -/
structure DeleteAccountResult where
  deleted_accounts : Nat
  deleted_transactions : Nat
  deleted_holdings : Nat
  connection_removed : Bool
deriving Repr, DecidableEq

/-- `DELETE FROM accounts WHERE id = ?` together with the migration-1
`ON DELETE CASCADE` foreign keys of `transactions` and
`portfolio_holdings`. -/
def cascadeDeleteAccount (db : DB) (accountId : String) : DB :=
  { db with
      accounts := db.accounts.filter (fun a => !(a.id == accountId)),
      transactions := db.transactions.filter (fun t =>
        !(t.account_id == accountId)),
      holdings := db.holdings.filter (fun h => !(h.account_id == accountId)) }

/-- The per-account body of the connection-deletion loop in `deleteAccount`:
count the account's transactions and holdings, then delete it (cascading).
State: `(db, totalTx, totalHoldings, deletedAccounts)`. -/
def deleteConnAccountStep (s : DB × Nat × Nat × Nat) (ca : String) :
    DB × Nat × Nat × Nat :=
  let db := s.1
  (cascadeDeleteAccount db ca,
   s.2.1 + (db.transactions.filter (fun t => t.account_id == ca)).length,
   s.2.2.1 + (db.holdings.filter (fun h => h.account_id == ca)).length,
   s.2.2.2 + 1)

/-- `deleteAccount` of tools/accounts/index.ts. If the account belongs to an
existing provider connection, the whole connection is removed: provider
`disconnect` and credential deletion are best-effort (every failure in `env`
is swallowed by the source's `try { } catch { }` blocks, so the result does
not depend on `env`), every account of the connection is deleted with its
transactions and holdings, and the `provider_connections` row is deleted.
Otherwise only the named account (and its cascade) is deleted. -/
def deleteAccount (db : DB) (id : String) (env : RemovalEnv) :
    DB × Except String DeleteAccountResult :=
  match db.accounts.find? (fun a => a.id == id) with
  | none => (db, .error ("Account \"" ++ id ++ "\" not found"))
  | some account =>
      let connResult : Option (DB × Nat × Nat × Nat) :=
        match account.connection_id with
        | none => none
        | some cid =>
            match db.connections.find? (fun c => c.id == cid) with
            | none => none
            | some conn =>
                -- best-effort `provider.disconnect()` — no ledger effect
                let connAccounts := (db.accounts.filter (fun a =>
                  a.connection_id == some conn.id)).map (fun a => a.id)
                let looped := connAccounts.foldl deleteConnAccountStep
                  (db, 0, 0, 0)
                -- best-effort `deleteCredential` — swallowed
                some (deleteConnectionRow looped.1 conn.id,
                      looped.2.1, looped.2.2.1, looped.2.2.2)
      match connResult with
      | some (db2, totalTx, totalHoldings, deletedAccounts) =>
          if deletedAccounts == 0 then
            -- `if (deletedAccounts === 0)` fallback still applies
            (cascadeDeleteAccount db2 id,
             .ok { deleted_accounts := 1,
                   deleted_transactions := (db2.transactions.filter
                     (fun t => t.account_id == id)).length,
                   deleted_holdings := (db2.holdings.filter
                     (fun h => h.account_id == id)).length,
                   connection_removed := true })
          else
            (db2, .ok { deleted_accounts := deletedAccounts,
                        deleted_transactions := totalTx,
                        deleted_holdings := totalHoldings,
                        connection_removed := true })
      | none =>
          (cascadeDeleteAccount db id,
           .ok { deleted_accounts := 1,
                 deleted_transactions := (db.transactions.filter
                   (fun t => t.account_id == id)).length,
                 deleted_holdings := (db.holdings.filter
                   (fun h => h.account_id == id)).length,
                 connection_removed := false })

/-! ### The Plaid cursor provider (providers/plaid `getTransactions`) -/

/-- A Plaid `Transaction` as consumed by the provider mapping. -/
structure PlaidTransaction where
  transaction_id : String
  account_id : String
  date : String
  amount : Rat
  name : String
  merchant_name : Option String
  pending : Bool
  iso_currency_code : Option String
deriving Repr, DecidableEq

/-- A Plaid `RemovedTransaction` (its `transaction_id` may be absent). -/
structure PlaidRemovedTransaction where
  transaction_id : Option String
deriving Repr, DecidableEq

/-- One `transactionsSync` response page. -/
structure PlaidSyncPage where
  added : List PlaidTransaction
  modified : List PlaidTransaction
  removed : List PlaidRemovedTransaction
  next_cursor : String
  has_more : Bool
deriving Repr, DecidableEq

/-- The per-transaction mapping of the Plaid provider: Plaid's sign
convention is inverted (`amount: -t.amount`). -/
def mapPlaidTransaction (t : PlaidTransaction) : RawTransaction :=
  { external_id := t.transaction_id,
    account_external_id := some t.account_id,
    date := t.date,
    amount := -t.amount,
    currency := some (t.iso_currency_code.getD "USD"),
    description := some t.name,
    merchant := t.merchant_name,
    category := none, subcategory := none, type_ := none,
    pending := t.pending, notes := none }

/-- `if (r.transaction_id) allRemoved.push(r.transaction_id)` — JavaScript
truthiness drops absent and empty ids. -/
def plaidRemovedIds (rs : List PlaidRemovedTransaction) : List String :=
  rs.filterMap (fun r =>
    match r.transaction_id with
    | some s => if s == "" then none else some s
    | none => none)

/-- The `while (hasMore)` drain loop of `PlaidDataProvider.getTransactions`,
with the upstream modelled as the sequence of successive `transactionsSync`
responses. `none` means the upstream keeps answering `has_more` beyond the
modelled responses (the loop would still be running). -/
def plaidDrain : List PlaidSyncPage → String → Option TxSyncResult
  | [], _ => none
  | page :: rest, _ =>
      if page.has_more then
        match plaidDrain rest page.next_cursor with
        | none => none
        | some r =>
            some { added := page.added.map mapPlaidTransaction ++ r.added,
                   modified := page.modified.map mapPlaidTransaction ++ r.modified,
                   removed := plaidRemovedIds page.removed ++ r.removed,
                   nextCursor := r.nextCursor }
      else
        some { added := page.added.map mapPlaidTransaction,
               modified := page.modified.map mapPlaidTransaction,
               removed := plaidRemovedIds page.removed,
               nextCursor := page.next_cursor }

/-- `PlaidDataProvider.getTransactions`: the loop starts from
`cursor ?? ''`. -/
def plaidGetTransactions (pages : List PlaidSyncPage)
    (cursor : Option String) : Option TxSyncResult :=
  plaidDrain pages (cursor.getD "")

/-! ### The Finicity date-range provider (providers/finicity/index.ts) -/

/-- A `FinicityAccount` as used by `filterByLogin` (ids are strings in the
client types). -/
structure FinicityAccount where
  id : String
  name : String
  type_ : String
  balance : Rat
  institutionLoginId : Int
  currency : Option String
deriving Repr, DecidableEq

/-- The optional `categorization` sub-object of a Finicity transaction. -/
structure FinicityCategorization where
  normalizedPayeeName : Option String
  category : Option String
deriving Repr, DecidableEq

/-- A `FinicityTransaction` (epoch seconds; `transactionDate` may be absent
at runtime, in which case `postedDate` is used). -/
structure FinicityTransaction where
  id : Int
  amount : Rat
  accountId : String
  status : String
  description : String
  type_ : String
  postedDate : Int
  transactionDate : Option Int
  categorization : Option FinicityCategorization
deriving Repr, DecidableEq

/-- The JavaScript `Date`/`Number` runtime the Finicity provider leans on:
`Date.now()`, `new Date(e * 1000).toISOString()`, `new Date(iso).getTime()`
and `Number(string)`. -/
structure JsDateEnv where
  nowMs : Int
  isoOfEpoch : Int → String
  epochMsOfIso : String → Int
  toNumber : String → Int

/-- The Finicity client endpoints the provider calls: the customer account
list and the transactions within a `(fromDate, toDate)` epoch range. -/
structure FinicityClientModel where
  accounts : List FinicityAccount
  transactionsIn : Int → Int → List FinicityTransaction

/-- `filterByLogin`: keep the accounts of this connection's institution
login (`if (!this.institutionLoginId) return accounts` is a truthiness
check, so an empty login id also returns everything). -/
def filterByLogin (env : JsDateEnv) (institutionLoginId : Option String)
    (accounts : List FinicityAccount) : List FinicityAccount :=
  match institutionLoginId with
  | none => accounts
  | some loginId =>
      if loginId == "" then accounts
      else accounts.filter (fun a =>
        a.institutionLoginId == env.toNumber loginId)

/-- `tx.transactionDate ?? tx.postedDate`, the epoch the loop observes. -/
def finicityTxEpoch (tx : FinicityTransaction) : Int :=
  tx.transactionDate.getD tx.postedDate

/-- The `added.push({...})` record of the Finicity loop: Finicity's sign
convention is inverted (`amount = -tx.amount`), dates are
`toISOString().slice(0, 10)` of the observed epoch. -/
def finicityMapTx (env : JsDateEnv) (tx : FinicityTransaction) :
    RawTransaction :=
  { external_id := toString tx.id,
    account_external_id := some tx.accountId,
    date := (env.isoOfEpoch (finicityTxEpoch tx)).take 10,
    amount := -tx.amount,
    currency := some "USD",
    description := some tx.description,
    merchant := tx.categorization.bind (fun c => c.normalizedPayeeName),
    category := tx.categorization.bind (fun c => c.category),
    subcategory := none,
    type_ := some tx.type_,
    pending := tx.status == "pending",
    notes := none }

/-- The body of the Finicity transaction loop: drop transactions outside the
login's accounts, track the latest observed epoch, and map the rest into
`added` rows. -/
def finicityTxStep (env : JsDateEnv) (loginAccountIds : List String)
    (s : List RawTransaction × Int) (tx : FinicityTransaction) :
    List RawTransaction × Int :=
  if !(loginAccountIds.contains tx.accountId) then s
  else
    let txEpoch := finicityTxEpoch tx
    let latest := if txEpoch > s.2 then txEpoch else s.2
    (s.1 ++ [finicityMapTx env tx], latest)

/-- The `fromDate` computation of `FinicityDataProvider.getTransactions`:
the parsed cursor when one is present (truthily), else the fixed 180-day
lookback window before now. -/
def finicityFromDate (env : JsDateEnv) (cursor : Option String) : Int :=
  let now := Int.fdiv env.nowMs 1000
  match cursor with
  | some c =>
      if c == "" then now - 180 * 24 * 60 * 60
      else Int.fdiv (env.epochMsOfIso c) 1000
  | none => now - 180 * 24 * 60 * 60

/-- `FinicityDataProvider.getTransactions`: date-range sync with a
synthesized ISO-timestamp cursor and a 180-day default lookback window. -/
def finicityGetTransactions (env : JsDateEnv) (client : FinicityClientModel)
    (institutionLoginId : Option String) (cursor : Option String) :
    TxSyncResult :=
  let now := Int.fdiv env.nowMs 1000
  let fromDate := finicityFromDate env cursor
  let allTxns := client.transactionsIn fromDate now
  let loginAccounts := filterByLogin env institutionLoginId client.accounts
  let loginAccountIds := loginAccounts.map (fun a => a.id)
  let looped := allTxns.foldl (finicityTxStep env loginAccountIds)
    ([], 0)
  let nextCursor :=
    if looped.2 > 0 then env.isoOfEpoch looped.2
    else match cursor with
         | some c => c
         | none => env.isoOfEpoch fromDate
  { added := looped.1, modified := [], removed := [],
    nextCursor := nextCursor }

/-! ### The CSV provider (providers/csv) and `importCsv`
(tools/import-export/index.ts) -/

/-- `CsvColumnMapping`: optional explicit column names. -/
structure CsvColumnMapping where
  date : Option String := none
  amount : Option String := none
  description : Option String := none
  merchant : Option String := none
  category : Option String := none
  subcategory : Option String := none
  type_ : Option String := none
  notes : Option String := none
  external_id : Option String := none
deriving Repr, DecidableEq

/-- The JavaScript runtime pieces the CSV path leans on: the native
`new Date(raw)` last-resort parse (returning `toISOString().slice(0, 10)`,
or `none` for an invalid date, which the source turns into a throw),
`parseFloat` (`none` for NaN), and number-to-string coercion used in the
synthesized external id. -/
structure CsvEnv where
  jsDateParse : String → Option String
  jsParseFloat : String → Option Rat
  numToString : Rat → String

/-- `CsvImportOptions` (file contents are passed separately as parsed
rows). -/
structure CsvImportOptions where
  accountExternalId : String
  mapping : CsvColumnMapping
  dateFormat : Option String
  invertAmounts : Bool

/-- JavaScript `String.prototype.trim`: strip leading and trailing
whitespace. -/
def jsTrim (s : String) : String :=
  String.mk
    (((s.toList.dropWhile Char.isWhitespace).reverse.dropWhile
      Char.isWhitespace).reverse)

/-- The `^\d{4}-\d{2}-\d{2}$` check of `normaliseDate`. -/
def isIsoDate (s : String) : Bool :=
  match s.toList with
  | [a, b, c, d, e, f, g, h, i, j] =>
      a.isDigit && b.isDigit && c.isDigit && d.isDigit && e == '-' &&
      f.isDigit && g.isDigit && h == '-' && i.isDigit && j.isDigit
  | _ => false

/-- One or two digits (a `\d{1,2}` regex group). -/
def digits1or2 (s : String) : Bool :=
  (s.length == 1 || s.length == 2) && s.toList.all (fun c => c.isDigit)

/-- Exactly four digits (a `\d{4}` regex group). -/
def digits4 (s : String) : Bool :=
  s.length == 4 && s.toList.all (fun c => c.isDigit)

/-- Split a character list on a separator (the groups of an anchored
`a\/b\/c` regex shape). -/
def splitOnChar (c : Char) : List Char → List (List Char)
  | [] => [[]]
  | x :: xs =>
      if x == c then [] :: splitOnChar c xs
      else
        match splitOnChar c xs with
        | g :: gs => (x :: g) :: gs
        | [] => [[x]]

/-- The `^(\d{1,2})\/(\d{1,2})\/(\d{4})$` match of `normaliseDate`. -/
def matchMdy (s : String) : Option (String × String × String) :=
  match (splitOnChar '/' s.toList).map String.mk with
  | [g1, g2, g3] =>
      if digits1or2 g1 && digits1or2 g2 && digits4 g3 then some (g1, g2, g3)
      else none
  | _ => none

/-- `padStart(2, '0')` for the one-or-two-digit groups above. -/
def pad2 (s : String) : String := if s.length == 1 then "0" ++ s else s

/-- `normaliseDate` of the CSV provider. A `\d{1,2}\/\d{1,2}\/\d{4}` string
always takes the MM/DD/YYYY branch (the source's DD/MM/YYYY branch sits
below an unconditional `return` on the same regex, so it is unreachable);
otherwise the native `Date` parse decides, and `none` models the throw. -/
def normaliseDate (env : CsvEnv) (format : Option String) (raw0 : String) :
    Option String :=
  let raw := jsTrim raw0
  if isIsoDate raw then some raw
  else
    match matchMdy raw with
    | some (m, d, y) => some (y ++ "-" ++ pad2 m ++ "-" ++ pad2 d)
    | none => env.jsDateParse raw

/-- `replace(/[,$\s]/g, '')` on the raw amount. -/
def stripAmountChars (s : String) : String :=
  String.mk (s.toList.filter (fun c =>
    !(c == ',' || c == '$' || c.isWhitespace)))

/-- `detectColumn`: the first candidate present as a key of the row. -/
def detectColumn (row : List (String × String)) (candidates : List String) :
    Option String :=
  candidates.find? (fun c => (row.lookup c).isSome)

/-- JavaScript truthiness on an optional string: absent and empty both
fail. -/
def optTruthy (o : Option String) : Option String :=
  match o with
  | some s => if s == "" then none else some s
  | none => none

/-- Resolve one column: explicit mapping first (`??`), then detection, then
the truthiness checks the source applies at every use site. -/
def resolveCol (mapped : Option String) (row : List (String × String))
    (candidates : List String) : Option String :=
  optTruthy (mapped.orElse (fun _ => detectColumn row candidates))

/-- The default date column candidates of the CSV provider. -/
def csvDateCandidates : List String :=
  ["date", "Date", "DATE", "Transaction Date", "Posted Date"]

/-- The default amount column candidates of the CSV provider. -/
def csvAmountCandidates : List String :=
  ["amount", "Amount", "AMOUNT", "Debit", "Credit"]

/-- Whether one CSV row makes it past the per-row parse: its date and amount
columns resolve, its date normalises, and its amount is not NaN. -/
def csvRowParses (env : CsvEnv) (opts : CsvImportOptions)
    (row : List (String × String)) : Bool :=
  match resolveCol opts.mapping.date row csvDateCandidates,
      resolveCol opts.mapping.amount row csvAmountCandidates with
  | some dc, some ac =>
      (normaliseDate env opts.dateFormat ((row.lookup dc).getD "")).isSome
        && (env.jsParseFloat
              (stripAmountChars ((row.lookup ac).getD "0"))).isSome
  | _, _ => false

/-- The transaction one parsed CSV row produces: the remaining columns are
resolved with their default candidate lists, the amount is inverted when
`invertAmounts` is set, and the external id falls back to the synthesized
`csv-account-date-amount-index` key. -/
def csvRowTx (env : CsvEnv) (opts : CsvImportOptions)
    (row : List (String × String)) (i : Nat) (date : String)
    (amount0 : Rat) : RawTransaction :=
  let descCol := resolveCol opts.mapping.description row
    ["description", "Description", "memo", "Memo", "MEMO", "Details"]
  let merchantCol := resolveCol opts.mapping.merchant row
    ["merchant", "Merchant", "Payee", "payee"]
  let categoryCol := resolveCol opts.mapping.category row
    ["category", "Category", "CATEGORY"]
  let subcategoryCol := resolveCol opts.mapping.subcategory row
    ["subcategory", "Subcategory"]
  let typeCol := resolveCol opts.mapping.type_ row
    ["type", "Type", "Transaction Type"]
  let notesCol := resolveCol opts.mapping.notes row
    ["notes", "Notes", "note", "Note"]
  let extIdCol := resolveCol opts.mapping.external_id row
    ["id", "ID", "transaction_id", "Transaction ID", "Reference"]
  let amount := if opts.invertAmounts then -amount0 else amount0
  let extFromCol : Option String :=
    match extIdCol with
    | none => none
    | some ec => optTruthy (row.lookup ec)
  let externalId := extFromCol.getD
    ("csv-" ++ opts.accountExternalId ++ "-" ++ date ++ "-"
      ++ env.numToString amount ++ "-" ++ toString i)
  { external_id := externalId,
    account_external_id := some opts.accountExternalId,
    date := date, amount := amount, currency := none,
    description := descCol.bind (fun c => row.lookup c),
    merchant := merchantCol.bind (fun c => row.lookup c),
    category := categoryCol.bind (fun c => row.lookup c),
    subcategory := subcategoryCol.bind (fun c => row.lookup c),
    type_ := typeCol.bind (fun c => row.lookup c),
    pending := false,
    notes := notesCol.bind (fun c => row.lookup c) }

/-- The row loop of `CsvDataProvider.getTransactions`. A row without
recognizable date/amount columns throws (aborting the whole parse); a row
whose date fails `normaliseDate` or whose amount parses to NaN is silently
skipped (`continue`); every other row becomes an `added` transaction. -/
def csvProcessRows (env : CsvEnv) (opts : CsvImportOptions) :
    Nat → List (List (String × String)) →
    Except String (List RawTransaction)
  | _, [] => .ok []
  | i, row :: rest =>
      match resolveCol opts.mapping.date row csvDateCandidates,
          resolveCol opts.mapping.amount row csvAmountCandidates with
      | some dc, some ac =>
          (match normaliseDate env opts.dateFormat
              ((row.lookup dc).getD "") with
           | none => csvProcessRows env opts (i + 1) rest
           | some date =>
             match env.jsParseFloat
                 (stripAmountChars ((row.lookup ac).getD "0")) with
             | none => csvProcessRows env opts (i + 1) rest
             | some amount0 =>
               match csvProcessRows env opts (i + 1) rest with
               | .error e => .error e
               | .ok txs => .ok (csvRowTx env opts row i date amount0 :: txs))
      | _, _ =>
          .error ("CSV row " ++ toString (i + 1)
            ++ ": Could not find required \"date\" or \"amount\" columns.")

/-- `CsvDataProvider.getTransactions`: a structural papaparse error throws;
otherwise the rows are processed in order and everything is `added`. -/
def csvGetTransactions (env : CsvEnv) (opts : CsvImportOptions)
    (papaErrors : List String) (rows : List (List (String × String))) :
    Except String TxSyncResult :=
  match papaErrors with
  | e :: _ => .error ("CSV parse error: " ++ e)
  | [] =>
      match csvProcessRows env opts 0 rows with
      | .error e => .error e
      | .ok added =>
          .ok { added := added, modified := [], removed := [],
                nextCursor := "" }

/-- The input record of `importCsv` (the parsed file contents are passed
separately). -/
structure ImportCsvInput where
  account_id : String
  mapping : CsvColumnMapping
  date_format : Option String
  invert_amounts : Bool

/-- The result record of `importCsv`. -/
structure ImportCsvResult where
  imported : Nat
  skipped : Nat
  errors : List String
deriving Repr, DecidableEq

/-- The insert loop of `importCsv`: `INSERT OR IGNORE` with `source =
'csv'`, `pending = 0`; `changes > 0` counts as imported, otherwise skipped.
The `catch` branch that would append to `errors` is unreachable in the
model (the embedded insert does not throw). State:
`(transactions, imported, skipped, uuidCounter, errors)`. -/
def importTxStep (account_id now : String) (uuid : Nat → String)
    (s : List TxRow × Nat × Nat × Nat × List String)
    (tx : RawTransaction) : List TxRow × Nat × Nat × Nat × List String :=
  let row : TxRow :=
    { id := uuid s.2.2.2.1, account_id := account_id, date := tx.date,
      amount := tx.amount, currency := tx.currency.getD "USD",
      description := tx.description, merchant := tx.merchant,
      category := tx.category, subcategory := tx.subcategory,
      type_ := tx.type_, source := "csv",
      external_id := some tx.external_id, pending := 0, notes := tx.notes,
      created_at := now, updated_at := now }
  let inserted := insertTxOrIgnore s.1 row
  if inserted.2 > 0 then
    (inserted.1, s.2.1 + 1, s.2.2.1, s.2.2.2.1 + 1, s.2.2.2.2)
  else
    (inserted.1, s.2.1, s.2.2.1 + 1, s.2.2.2.1 + 1, s.2.2.2.2)

/-- `importCsv` of tools/import-export/index.ts. -/
def importCsv (db : DB) (input : ImportCsvInput) (env : CsvEnv)
    (uuid : Nat → String) (now : String) (papaErrors : List String)
    (rows : List (List (String × String))) :
    DB × Except String ImportCsvResult :=
  match db.accounts.find? (fun a => a.id == input.account_id) with
  | none => (db, .error ("Account \"" ++ input.account_id ++ "\" not found"))
  | some _ =>
      let opts : CsvImportOptions :=
        { accountExternalId := input.account_id, mapping := input.mapping,
          dateFormat := input.date_format,
          invertAmounts := input.invert_amounts }
      match csvGetTransactions env opts papaErrors rows with
      | .error e => (db, .error e)
      | .ok fetched =>
          let final := fetched.added.foldl
            (importTxStep input.account_id now uuid)
            (db.transactions, 0, 0, 0, [])
          ({ db with transactions := final.1 },
           .ok { imported := final.2.1, skipped := final.2.2.1,
                 errors := final.2.2.2.2 })

/-! ### Link completion tools: `completePlaidLink`
(tools/connections/plaid-link.ts) and `linkCoinbase`
(tools/connections/coinbase-link.ts) -/

/-- One `linkTokenGet` session snapshot as the poll loop reads it:
`finished_at`, the collapsed `results?.item_add_results?.[0]?.public_token`,
and the collapsed `exit?.error` messages. -/
structure PlaidLinkSession where
  finished_at : Option String
  public_token : Option String
  exit_display_message : Option String
  exit_error_message : Option String
deriving Repr, DecidableEq

/-- The upstream Plaid endpoints `completePlaidLink` calls, with the poll
loop's successive `linkTokenGet` answers given as a list (its length models
the 30-second deadline: an exhausted list is a timed-out poll).
`exchange` is `itemPublicTokenExchange` (public token to
`(access_token, item_id)`), `accountsGet` yields `item.institution_id`, and
`institutionName` is `institutionsGetById`. -/
structure PlaidLinkEnv where
  sessions : List (Option PlaidLinkSession)
  exchange : String → Except String (String × String)
  accountsGet : String → Except String (Option String)
  institutionName : String → Except String String
  itemRemove : String → Except String Unit
  uuid : Nat → String
  ts : String

/-- Observable non-ledger actions of the link tools. -/
inductive LinkAction where
  | itemRemove (accessToken : String)
  | setCredential (key : String) (value : String)
deriving Repr, DecidableEq

/-- The result union of `completePlaidLink` (`holdings_synced` of the newer
engine is not modelled; the embedded `syncConnection` reports accounts and
transactions). -/
inductive LinkPlaidCompleteResult where
  | complete (connection_id : String) (institution_name : String)
      (accounts_synced : Nat) (transactions_added : Nat)
  | duplicate (connection_id : String) (institution_name : Option String)
  | waiting
deriving Repr, DecidableEq

/-- The `while (Date.now() < deadline)` poll loop of `completePlaidLink`:
skip absent or unfinished sessions, break with the public token on success,
throw the exit reason on a finished session without one, and fall out of
the loop (`none`) when the snapshots run out. -/
def plaidPoll : List (Option PlaidLinkSession) → Except String (Option String)
  | [] => .ok none
  | none :: rest => plaidPoll rest
  | some s :: rest =>
      match s.finished_at with
      | none => plaidPoll rest
      | some _ =>
          match s.public_token with
          | some pt => .ok (some pt)
          | none =>
              .error ((s.exit_display_message.orElse
                (fun _ => s.exit_error_message)).getD
                "User exited Plaid Link without connecting a bank.")

/-- `completePlaidLink`: poll, exchange, duplicate-detect by `item_id` and
then by `institution_id` (releasing the freshly created item via
best-effort `itemRemove` on either duplicate), else store the credential,
insert the connection row and auto-sync. -/
def completePlaidLink (db : DB) (env : PlaidLinkEnv) (syncEnv : SyncEnv)
    (institution_name : Option String) :
    DB × List LinkAction × Except String LinkPlaidCompleteResult :=
  match plaidPoll env.sessions with
  | .error e => (db, [], .error e)
  | .ok none => (db, [], .ok .waiting)
  | .ok (some pt) =>
    match env.exchange pt with
    | .error e => (db, [], .error e)
    | .ok (accessToken, itemId) =>
      match db.connections.find? (fun c => c.item_id == some itemId) with
      | some existing =>
          -- remove the duplicate Plaid item (best-effort) and report it
          (db, [LinkAction.itemRemove accessToken],
           .ok (.duplicate existing.id existing.institution_name))
      | none =>
        match env.accountsGet accessToken with
        | .error e => (db, [], .error e)
        | .ok instIdRaw =>
          let instId := optTruthy instIdRaw
          let institutionName :=
            institution_name.getD (instId.getD "Unknown Institution")
          let resolvedName :=
            match instId with
            | some iid =>
                match env.institutionName iid with
                | .ok n => n
                | .error _ => institutionName
            | none => institutionName
          let existingByInstitution : Option ProviderConnectionRow :=
            match instId with
            | some iid =>
                db.connections.find? (fun c => c.institution_id == some iid)
            | none => none
          match existingByInstitution with
          | some ex =>
              (db, [LinkAction.itemRemove accessToken],
               .ok (.duplicate ex.id ex.institution_name))
          | none =>
            let connectionId := env.uuid 0
            let keychainKey := "plaid-" ++ connectionId
            let db2 : DB := { db with connections := db.connections ++
              [{ id := connectionId, provider := "plaid",
                 institution_id := instId,
                 institution_name := some resolvedName,
                 keychain_key := keychainKey, item_id := some itemId,
                 cursor := none, last_synced_at := none,
                 created_at := env.ts, updated_at := env.ts }] }
            let acts := [LinkAction.setCredential keychainKey accessToken]
            match syncConnection db2 connectionId syncEnv with
            | (db3, _, .error e) => (db3, acts, .error e)
            | (db3, _, .ok sync) =>
                (db3, acts,
                 .ok (.complete connectionId resolvedName
                   sync.accounts_synced sync.transactions_added))

/-- The result union of `linkCoinbase` (`holdings_synced` of the newer
engine is not modelled). -/
inductive LinkCoinbaseResult where
  | complete (connection_id : String) (accounts_synced : Nat)
      (transactions_added : Nat)
  | duplicate (connection_id : String)
deriving Repr, DecidableEq

/-- The effects `linkCoinbase` uses directly: the credential-validating
`CoinbaseClient.getAccounts` test call, the uuid supply and the
timestamp. -/
structure CoinbaseLinkEnv where
  testGetAccounts : Except String Unit
  uuid : Nat → String
  ts : String

/-- `linkCoinbase`: validate the supplied API credentials with a test call,
then detect a duplicate by `provider = 'coinbase'` alone (Coinbase carries a
single global account), else store the credential JSON, insert the row and
auto-sync. -/
def linkCoinbase (db : DB) (env : CoinbaseLinkEnv) (syncEnv : SyncEnv)
    (api_key api_secret : String) :
    DB × List LinkAction × Except String LinkCoinbaseResult :=
  match env.testGetAccounts with
  | .error e =>
      (db, [], .error ("Failed to authenticate with Coinbase: " ++ e
        ++ ". Check that your API key and secret are correct and have read permissions."))
  | .ok _ =>
    match db.connections.find? (fun c => c.provider == "coinbase") with
    | some existing => (db, [], .ok (.duplicate existing.id))
    | none =>
        let connectionId := env.uuid 0
        let keychainKey := "coinbase-" ++ connectionId
        let credentialJson :=
          "\x7b\"apiKey\":\"" ++ api_key ++ "\",\"apiSecret\":\""
            ++ api_secret ++ "\"\x7d"
        let db2 : DB := { db with connections := db.connections ++
          [{ id := connectionId, provider := "coinbase",
             institution_id := none, institution_name := some "Coinbase",
             keychain_key := keychainKey, item_id := none, cursor := none,
             last_synced_at := none, created_at := env.ts,
             updated_at := env.ts }] }
        let acts := [LinkAction.setCredential keychainKey credentialJson]
        match syncConnection db2 connectionId syncEnv with
        | (db3, _, .error e) => (db3, acts, .error e)
        | (db3, _, .ok sync) =>
            (db3, acts,
             .ok (.complete connectionId sync.accounts_synced
               sync.transactions_added))

/-! ### Notions used by the theorem statements -/

/-- The identity-and-upsert-key projection of an account row: everything
`findAccountBy` reads plus the primary key it returns. All mutations the
sync performs on existing rows (field updates, balance refreshes) preserve
it. -/
def accountKey (a : AccountRow) : String × String × Option String :=
  (a.id, a.source, a.external_id)

/-- The in-memory map agrees with the live table: every binding points at
the first `(source, external_id)` match. -/
def MapConsistent (accs : List AccountRow) (p : String)
    (m : List (String × String)) : Prop :=
  ∀ e i, m.lookup e = some i →
    Option.map AccountRow.id (findAccountBy accs p e) = some i

/-- Every raw account's external id has a binding in the map. -/
def MapCovers (m : List (String × String)) (raws : List RawAccount) : Prop :=
  ∀ raw ∈ raws, (m.lookup raw.external_id).isSome = true

/-- Some stored transaction occupies the `(account_id, external_id)` slot. -/
def KeyPresent (txs : List TxRow) (a e : String) : Prop :=
  ∃ t, t ∈ txs ∧ t.account_id = a ∧ t.external_id = some e

/-! ### Concrete instances for counterexamples and witnesses -/

/-- A sample account row. -/
def exAccount (id source : String) (ext : Option String)
    (cid : Option String) : AccountRow :=
  { id := id, name := "Account " ++ id, institution := none,
    type_ := "checking", currency := "USD", balance := none,
    source := source, external_id := ext, is_active := 1,
    connection_id := cid, created_at := "t0", updated_at := "t0" }

/-- A sample transaction row. -/
def exTx (id aid source : String) (ext : Option String) : TxRow :=
  { id := id, account_id := aid, date := "2026-01-01", amount := 1,
    currency := "USD", description := none, merchant := none,
    category := none, subcategory := none, type_ := none, source := source,
    external_id := ext, pending := 0, notes := none, created_at := "t0",
    updated_at := "t0" }

/-- A sample holding row. -/
def exHolding (id aid : String) : HoldingRow :=
  { id := id, account_id := aid, symbol := "AAPL", name := none,
    quantity := 1, price := none, value := none, currency := "USD",
    asset_type := none, price_source := none, price_as_of := none,
    created_at := "t0", updated_at := "t0" }

/-- A sample connection row. -/
def exConn (id provider : String) : ProviderConnectionRow :=
  { id := id, provider := provider, institution_id := none,
    institution_name := some "Bank", keychain_key := "key-" ++ id,
    item_id := none, cursor := none, last_synced_at := none,
    created_at := "t0", updated_at := "t0" }

/-- A sample raw provider account. -/
def exRawAccount (ext name : String) : RawAccount :=
  { external_id := ext, name := name, institution := none,
    type_ := "checking", currency := none, balance := none }

/-- A sample raw provider transaction. -/
def exRawTx (ext accExt : String) : RawTransaction :=
  { external_id := ext, account_external_id := some accExt,
    date := "2026-01-02", amount := 5, currency := none,
    description := none, merchant := none, category := none,
    subcategory := none, type_ := none, pending := false, notes := none }

/-- An injective id supply for witnesses (`crypto.randomUUID` modelled as a
stream of pairwise-distinct fresh strings). -/
def uuidRep (n : Nat) : String := String.mk (List.replicate (n + 1) 'u')

/-- C1 witness: a provider whose balance fetch throws. -/
def c1ProviderFail : DataProvider :=
  { getAccounts := .ok [exRawAccount "a1" "A"],
    getTransactions := fun _ => .ok
      { added := [exRawTx "t1" "a1"], modified := [], removed := [],
        nextCursor := "cur1" },
    getBalances := .error "balance boom", disconnect := none }

/-- C1 witness: the same provider with balances succeeding. -/
def c1ProviderOk : DataProvider :=
  { getAccounts := .ok [exRawAccount "a1" "A"],
    getTransactions := fun _ => .ok
      { added := [exRawTx "t1" "a1"], modified := [], removed := [],
        nextCursor := "cur1" },
    getBalances := .ok [], disconnect := none }

/-- C1 witness environment resolving to the failing provider. -/
def c1EnvFail : SyncEnv :=
  { getCredential := fun _ => some "cred",
    registryCreate := fun _ _ _ => .ok c1ProviderFail,
    uuid := uuidRep, ts := "ts1" }

/-- C1 witness environment resolving to the succeeding provider. -/
def c1EnvOk : SyncEnv :=
  { getCredential := fun _ => some "cred",
    registryCreate := fun _ _ _ => .ok c1ProviderOk,
    uuid := uuidRep, ts := "ts1" }

/-- C1 witness database: one linked connection, empty ledger. -/
def c1Db : DB := ⟨[], [], [], [exConn "c1" "plaid"]⟩

/-- C2 counterexample transaction rows: same `(source, external_id)`,
different accounts. -/
def c2Tx (id aid : String) : TxRow := exTx id aid "plaid" (some "x1")

/-- C2 counterexample account rows: same `(source, external_id)`. -/
def c2Account (id : String) : AccountRow :=
  exAccount id "plaid" (some "e1") none

/-- C3 counterexample provider: constant data with the same transaction in
`added` and `modified`. -/
def c3Provider : DataProvider :=
  { getAccounts := .ok [exRawAccount "a1" "A"],
    getTransactions := fun _ => .ok
      { added := [exRawTx "t1" "a1"], modified := [exRawTx "t1" "a1"],
        removed := [], nextCursor := "cur" },
    getBalances := .ok [], disconnect := none }

/-- C3 counterexample environment, first call. -/
def c3Env1 : SyncEnv :=
  { getCredential := fun _ => some "cred",
    registryCreate := fun _ _ _ => .ok c3Provider,
    uuid := fun n => "uuid1-" ++ toString n, ts := "ts1" }

/-- C3 counterexample environment, second call (fresh uuids, later
timestamp, same credential store and registry). -/
def c3Env2 : SyncEnv :=
  { getCredential := fun _ => some "cred",
    registryCreate := fun _ _ _ => .ok c3Provider,
    uuid := fun n => "uuid2-" ++ toString n, ts := "ts2" }

/-- C3 counterexample database. -/
def c3Db : DB := ⟨[], [], [], [exConn "c1" "plaid"]⟩

/-- C3 witness provider: constant data, empty `modified`/`removed`. -/
def c3wProvider : DataProvider :=
  { getAccounts := .ok [exRawAccount "a1" "A"],
    getTransactions := fun _ => .ok
      { added := [exRawTx "t1" "a1"], modified := [], removed := [],
        nextCursor := "curw" },
    getBalances := .ok [], disconnect := none }

/-- C3 witness environment (both calls). -/
def c3wEnv : SyncEnv :=
  { getCredential := fun _ => some "cred",
    registryCreate := fun _ _ _ => .ok c3wProvider,
    uuid := uuidRep, ts := "tsw" }

/-- C4 witness: first-sync provider reporting external id `a1` under one
name. -/
def c4Provider1 : DataProvider :=
  { getAccounts := .ok [exRawAccount "a1" "Old Name"],
    getTransactions := fun _ => .ok
      { added := [], modified := [], removed := [], nextCursor := "c4a" },
    getBalances := .ok [], disconnect := none }

/-- C4 witness: second-sync provider with the same external id and a new
name. -/
def c4Provider2 : DataProvider :=
  { getAccounts := .ok [exRawAccount "a1" "New Name"],
    getTransactions := fun _ => .ok
      { added := [], modified := [], removed := [], nextCursor := "c4b" },
    getBalances := .ok [], disconnect := none }

/-- C4 witness environment, first call. -/
def c4Env1 : SyncEnv :=
  { getCredential := fun _ => some "cred",
    registryCreate := fun _ _ _ => .ok c4Provider1,
    uuid := uuidRep, ts := "ts1" }

/-- C4 witness environment, second call. -/
def c4Env2 : SyncEnv :=
  { getCredential := fun _ => some "cred",
    registryCreate := fun _ _ _ => .ok c4Provider2,
    uuid := uuidRep, ts := "ts2" }

/-- C4 witness database. -/
def c4Db : DB := ⟨[], [], [], [exConn "c1" "plaid"]⟩

/-- C5 counterexample database: one connection owning one account that has
one transaction and one holding. -/
def c5Db : DB :=
  ⟨[exAccount "a1" "plaid" (some "e1") (some "c1")],
   [exTx "t1" "a1" "plaid" (some "x1")],
   [exHolding "h1" "a1"],
   [exConn "c1" "plaid"]⟩

/-- C5/C10 removal environment (every effect succeeds; the theorems do not
depend on it). -/
def c5Env : RemovalEnv :=
  { getCredential := .ok none, deleteCredential := .ok true,
    registryCreate := fun _ _ _ => .error "unused" }

/-- C6 witness pages. -/
def c6Page1 : PlaidSyncPage :=
  { added := [{ transaction_id := "p1", account_id := "acc",
                date := "2026-01-01", amount := 3, name := "one",
                merchant_name := none, pending := false,
                iso_currency_code := none }],
    modified := [], removed := [{ transaction_id := some "r1" }],
    next_cursor := "mid", has_more := true }

/-- C6 witness final page. -/
def c6Page2 : PlaidSyncPage :=
  { added := [{ transaction_id := "p2", account_id := "acc",
                date := "2026-01-02", amount := 4, name := "two",
                merchant_name := some "m", pending := true,
                iso_currency_code := some "EUR" }],
    modified := [{ transaction_id := "p3", account_id := "acc",
                   date := "2026-01-03", amount := 5, name := "three",
                   merchant_name := none, pending := false,
                   iso_currency_code := none }],
    removed := [{ transaction_id := none }],
    next_cursor := "final", has_more := false }

/-- C7 environment: a concrete JavaScript date runtime. -/
def c7Env : JsDateEnv :=
  { nowMs := 1700000000000,
    isoOfEpoch := fun e => "iso:" ++ toString e,
    epochMsOfIso := fun _ => 0,
    toNumber := fun s => if s == "1" then 1 else 0 }

/-- C7 account inside the connection's institution login. -/
def c7AccountIn : FinicityAccount :=
  { id := "acc1", name := "In", type_ := "checking", balance := 0,
    institutionLoginId := 1, currency := none }

/-- C7 account of a different institution login of the same customer. -/
def c7AccountOut : FinicityAccount :=
  { id := "acc2", name := "Out", type_ := "checking", balance := 0,
    institutionLoginId := 2, currency := none }

/-- C7 transaction belonging to the out-of-login account. -/
def c7TxOut : FinicityTransaction :=
  { id := 9, amount := 5, accountId := "acc2", status := "active",
    description := "other login", type_ := "debit", postedDate := 100,
    transactionDate := none, categorization := none }

/-- C7 transaction belonging to the in-login account. -/
def c7TxIn : FinicityTransaction :=
  { id := 8, amount := 2, accountId := "acc1", status := "active",
    description := "mine", type_ := "credit", postedDate := 50,
    transactionDate := some 60, categorization := none }

/-- C7 counterexample client: the customer-wide transaction fetch returns
one transaction of another institution login. -/
def c7Client : FinicityClientModel :=
  { accounts := [c7AccountIn, c7AccountOut],
    transactionsIn := fun _ _ => [c7TxOut] }

/-- C7 witness client: one in-login and one out-of-login transaction. -/
def c7wClient : FinicityClientModel :=
  { accounts := [c7AccountIn, c7AccountOut],
    transactionsIn := fun _ _ => [c7TxIn, c7TxOut] }

/-- C8 witness session: user finished and a public token is available. -/
def c8Session : PlaidLinkSession :=
  { finished_at := some "done", public_token := some "pub-1",
    exit_display_message := none, exit_error_message := none }

/-- C8 witness Plaid environment. -/
def c8Env : PlaidLinkEnv :=
  { sessions := [none, some c8Session],
    exchange := fun pt =>
      if pt == "pub-1" then .ok ("access-1", "item-1") else .error "bad token",
    accountsGet := fun _ => .ok (some "ins_9"),
    institutionName := fun _ => .ok "Chase",
    itemRemove := fun _ => .ok (),
    uuid := uuidRep, ts := "ts8" }

/-- C8 existing connection for the institution-id duplicate path. -/
def c8ConnInst : ProviderConnectionRow :=
  { exConn "c0" "plaid" with
    institution_id := some "ins_9", item_id := some "item-0" }

/-- C8 existing connection for the item-id duplicate path. -/
def c8ConnItem : ProviderConnectionRow :=
  { exConn "c0" "plaid" with
    institution_id := some "ins_8", item_id := some "item-1" }

/-- C8 witness database: a connection for the same institution id already
exists (under a different item id). -/
def c8Db : DB := ⟨[], [], [], [c8ConnInst]⟩

/-- C8 witness database for the item-id duplicate path. -/
def c8DbItem : DB := ⟨[], [], [], [c8ConnItem]⟩

/-- C8 witness sync environment (never reached on the duplicate path). -/
def c8SyncEnv : SyncEnv :=
  { getCredential := fun _ => none,
    registryCreate := fun _ _ _ => .error "unused",
    uuid := uuidRep, ts := "ts8" }

/-- C8 witness Coinbase environment. -/
def c8CoinbaseEnv : CoinbaseLinkEnv :=
  { testGetAccounts := .ok (), uuid := uuidRep, ts := "ts8" }

/-- C8 witness database with an existing Coinbase connection. -/
def c8CoinbaseDb : DB := ⟨[], [], [], [exConn "cb1" "coinbase"]⟩

/-- C9 environment: the native date parse rejects everything that reaches
it, and `parseFloat` handles the two amounts of the example. -/
def c9Env : CsvEnv :=
  { jsDateParse := fun _ => none,
    jsParseFloat := fun s =>
      if s == "10" then some 10 else if s == "5" then some 5 else none,
    numToString := fun r => if r == 10 then "10" else "x" }

/-- C9 row with a well-formed date. -/
def c9RowGood : List (String × String) :=
  [("Date", "2026-01-05"), ("Amount", "10")]

/-- C9 row whose date no parser accepts. -/
def c9RowBad : List (String × String) :=
  [("Date", "bogus!!"), ("Amount", "5")]

/-- C9 database: the target account exists. -/
def c9Db : DB := ⟨[exAccount "acc1" "manual" none none], [], [], []⟩

/-- C9 import input. -/
def c9Input : ImportCsvInput :=
  { account_id := "acc1", mapping := {}, date_format := none,
    invert_amounts := false }

/-- C10 witness database: a connection owning two accounts (with their
transactions and holdings) plus an unrelated manual account. -/
def c10Db : DB :=
  ⟨[exAccount "a1" "plaid" (some "e1") (some "c1"),
    exAccount "a2" "plaid" (some "e2") (some "c1"),
    exAccount "a3" "manual" none none],
   [exTx "t1" "a1" "plaid" (some "x1"),
    exTx "t2" "a2" "plaid" (some "x2"),
    exTx "t3" "a3" "manual" none],
   [exHolding "h1" "a1", exHolding "h3" "a3"],
   [exConn "c1" "plaid"]⟩

deriving instance DecidableEq for Except

/-- The value `syncConnection` takes on its all-provider-calls-succeed
path, written out once so that theorems about successful syncs can reason
about the phases by name. -/
def syncSuccess (db : DB) (id : String) (env : SyncEnv)
    (conn : ProviderConnectionRow) (raws : List RawAccount)
    (fetched : TxSyncResult) (bals : List RawBalance) :
    DB × List DbWrite × Except String SyncConnectionResult :=
  let accState := syncAccountsFold conn.provider env.ts env.uuid
    db.accounts raws
  let addedState := syncAddedFold conn.provider env.ts env.uuid
    accState.idMap db.transactions accState.counter fetched.added
  let modState := syncModifiedFold env.ts accState.idMap addedState.txs
    fetched.modified
  let remState := syncRemovedFold conn.provider modState.txs fetched.removed
  let balResult := syncBalancesFold env.ts accState.idMap accState.accounts
    bals
  ({ accounts := balResult.1, transactions := remState.txs,
     holdings := db.holdings,
     connections := updateConnRun db.connections id fetched.nextCursor
       env.ts },
   accState.writes ++ addedState.writes ++ modState.writes
     ++ remState.writes ++ balResult.2
     ++ [DbWrite.connUpdate id fetched.nextCursor env.ts],
   .ok { provider := conn.provider,
         institution_name := conn.institution_name,
         accounts_synced := accState.synced,
         transactions_added := addedState.count,
         transactions_modified := modState.count,
         transactions_removed := remState.count,
         last_synced_at := env.ts })

/-! ## Theorems -/

/-- C2 counterexample: the storage layer does not enforce
`(source, external_id)` uniqueness. Two transaction rows with the same
`(source, external_id)` but different accounts are both accepted by the
engine's own `INSERT OR IGNORE` (the second insert reports `changes = 1`,
not a silent no-op), and the resulting table — like a pair of non-manual
account rows sharing `(source, external_id)` — satisfies every constraint
migration 1 declares (`UNIQUE(account_id, external_id)` on transactions,
bare primary keys on accounts). -/
theorem c2_storage_key_counterexample :
    insertTxOrIgnore [] (c2Tx "t1" "a1") = ([c2Tx "t1" "a1"], 1) ∧
    insertTxOrIgnore [c2Tx "t1" "a1"] (c2Tx "t2" "a2")
      = ([c2Tx "t1" "a1", c2Tx "t2" "a2"], 1) ∧
    txTableOk [c2Tx "t1" "a1", c2Tx "t2" "a2"] = true ∧
    (c2Tx "t1" "a1").source = (c2Tx "t2" "a2").source ∧
    (c2Tx "t1" "a1").external_id = (c2Tx "t2" "a2").external_id ∧
    (c2Tx "t1" "a1").id ≠ (c2Tx "t2" "a2").id ∧
    accountsTableOk [c2Account "a1", c2Account "a2"] = true ∧
    (c2Account "a1").source = (c2Account "a2").source ∧
    (c2Account "a1").source ≠ "manual" ∧
    (c2Account "a1").external_id = (c2Account "a2").external_id ∧
    (c2Account "a1").id ≠ (c2Account "a2").id := by decide

/-- Appending a row that collides with nothing preserves the transaction
table's schema constraints. -/
theorem txTableOk_concat (txs : List TxRow) (row : TxRow)
    (h : txTableOk txs = true)
    (hfresh : ∀ t ∈ txs, t.id ≠ row.id ∧ sameTxKey t row = false) :
    txTableOk (txs ++ [row]) = true := by
  induction txs with
  | nil => simp [txTableOk]
  | cons t rest ih =>
      simp only [txTableOk, Bool.and_eq_true, List.all_eq_true] at h
      have hf := hfresh t (List.mem_cons_self t rest)
      simp only [List.cons_append, txTableOk, Bool.and_eq_true,
        List.all_eq_true]
      refine ⟨?_, ih h.2 (fun t2 ht2 => hfresh t2 (List.mem_cons_of_mem t ht2))⟩
      intro t2 ht2
      rcases List.mem_append.mp ht2 with h1 | h2
      · exact h.1 t2 h1
      · have ht2r : t2 = row := by simpa using h2
        subst ht2r
        simp [bne_iff_ne, hf.1, hf.2]

/-- C2 amended: the uniqueness constraint the storage layer does enforce on
transactions is `(account_id, external_id)` (accounts carry none), the
engine's `INSERT OR IGNORE` preserves it, and a reinsertion that collides on
that account-scoped key — not on `(source, external_id)` — is the silent
no-op. -/
theorem c2_unique_key_is_account_scoped (txs : List TxRow) (row : TxRow)
    (h : txTableOk txs = true) :
    txTableOk (insertTxOrIgnore txs row).1 = true ∧
    (∀ t ∈ txs, sameTxKey t row = true →
      insertTxOrIgnore txs row = (txs, 0)) := by
  constructor
  · by_cases hany : txs.any (fun t => t.id == row.id || sameTxKey t row) = true
    · simp [insertTxOrIgnore, hany, h]
    · have hfa : ∀ t ∈ txs, t.id ≠ row.id ∧ sameTxKey t row = false := by
        intro t ht
        have := (Bool.not_eq_true _).symm ▸ hany
        rw [List.any_eq_true] at hany
        push_neg at hany
        have h2 := hany t ht
        constructor
        · intro hid
          exact h2 (by simp [hid])
        · by_contra hsk
          exact h2 (by simp [eq_true_of_ne_false hsk])
      simp only [insertTxOrIgnore]
      rw [if_neg (by simpa using hany)]
      exact txTableOk_concat txs row h hfa
  · intro t ht hkey
    have hany : txs.any (fun t => t.id == row.id || sameTxKey t row) = true :=
      List.any_eq_true.mpr ⟨t, ht, by simp [hkey]⟩
    simp [insertTxOrIgnore, hany]

/-- C2 amended, witness: reinserting into the occupied
`(account_id, external_id)` slot is a schema-preserving no-op. -/
theorem c2_unique_key_witness :
    txTableOk (insertTxOrIgnore [c2Tx "t1" "a1"] (c2Tx "t3" "a1")).1 = true ∧
    insertTxOrIgnore [c2Tx "t1" "a1"] (c2Tx "t3" "a1") = ([c2Tx "t1" "a1"], 0) := by
  have h := c2_unique_key_is_account_scoped [c2Tx "t1" "a1"] (c2Tx "t3" "a1")
    (by decide)
  exact ⟨h.1, h.2 (c2Tx "t1" "a1") (by decide) (by decide)⟩

/-- C5 counterexample: `removeConnection` does not delete the connection's
accounts, transactions or holdings. On a ledger with one connection owning
one account, one transaction and one holding, removing the connection
leaves all three rows in place (the account merely loses its
`connection_id` through the FK's `ON DELETE SET NULL`). -/
theorem c5_remove_connection_counterexample :
    removeConnection c5Db "c1" c5Env =
      (⟨[exAccount "a1" "plaid" (some "e1") none],
        [exTx "t1" "a1" "plaid" (some "x1")],
        [exHolding "h1" "a1"], []⟩, .ok true) ∧
    (removeConnection c5Db "c1" c5Env).1.accounts.length = 1 ∧
    (removeConnection c5Db "c1" c5Env).1.transactions.length = 1 ∧
    (removeConnection c5Db "c1" c5Env).1.holdings.length = 1 := by decide

/-- C5 amended: `removeConnection` deletes only the credential
(best-effort) and the `provider_connections` row; the FK action detaches
owned accounts by clearing `connection_id`, and every account, transaction
and holding row survives. -/
theorem c5_remove_connection_detaches (db : DB) (id : String)
    (env : RemovalEnv) (conn : ProviderConnectionRow)
    (hfind : db.connections.find? (fun c => c.id == id) = some conn) :
    removeConnection db id env = (deleteConnectionRow db id, .ok true) ∧
    (deleteConnectionRow db id).transactions = db.transactions ∧
    (deleteConnectionRow db id).holdings = db.holdings ∧
    (deleteConnectionRow db id).accounts = db.accounts.map (fun a =>
      if a.connection_id == some id then { a with connection_id := none }
      else a) ∧
    (deleteConnectionRow db id).connections =
      db.connections.filter (fun c => !(c.id == id)) := by
  have hmem := List.mem_of_find?_eq_some hfind
  have hid : (conn.id == id) = true := by
    have h2 := List.find?_some hfind
    simpa using h2
  refine ⟨?_, rfl, rfl, rfl, rfl⟩
  simp only [removeConnection, hfind]
  congr 1
  simp only [Except.ok.injEq, decide_eq_true_eq]
  intro hlen
  have : (db.connections.filter (fun c => !(c.id == id))).length
      < db.connections.length := by
    apply List.length_filter_lt_length_iff_exists.mpr
    exact ⟨conn, hmem, by simp [hid]⟩
  simp only [deleteConnectionRow] at hlen
  omega

/-- C5 amended, witness: the concrete one-connection ledger. -/
theorem c5_remove_connection_witness :
    removeConnection c5Db "c1" c5Env = (deleteConnectionRow c5Db "c1", .ok true) ∧
    (deleteConnectionRow c5Db "c1").transactions = c5Db.transactions ∧
    (deleteConnectionRow c5Db "c1").holdings = c5Db.holdings := by
  have h := c5_remove_connection_detaches c5Db "c1" c5Env (exConn "c1" "plaid")
    (by decide)
  exact ⟨h.1, h.2.1, h.2.2.1⟩

/-- The Plaid drain loop over a page sequence whose last page alone clears
`has_more` concatenates every page's contribution in order and keeps the
final cursor. -/
theorem plaidDrain_concat (front : List PlaidSyncPage) (last : PlaidSyncPage)
    (hfront : ∀ p ∈ front, p.has_more = true) (hlast : last.has_more = false) :
    ∀ c : String, plaidDrain (front ++ [last]) c =
      some { added := (front ++ [last]).flatMap
               (fun p => p.added.map mapPlaidTransaction),
             modified := (front ++ [last]).flatMap
               (fun p => p.modified.map mapPlaidTransaction),
             removed := (front ++ [last]).flatMap
               (fun p => plaidRemovedIds p.removed),
             nextCursor := last.next_cursor } := by
  induction front with
  | nil => intro c; simp [plaidDrain, hlast]
  | cons p rest ih =>
      intro c
      have hp : p.has_more = true := hfront p (List.mem_cons_self p rest)
      have ihr := ih (fun q hq => hfront q (List.mem_cons_of_mem p hq))
      simp [plaidDrain, hp, ihr p.next_cursor]

/-- C6: `PlaidDataProvider.getTransactions` drains every upstream page while
`has_more` holds, concatenates all pages' `added`/`modified`/`removed`
entries in order (removed entries with a present, non-empty id), and
returns the final page's `next_cursor` as `nextCursor`. -/
theorem c6_plaid_drains_all_pages (front : List PlaidSyncPage)
    (last : PlaidSyncPage) (cursor : Option String)
    (hfront : ∀ p ∈ front, p.has_more = true)
    (hlast : last.has_more = false) :
    plaidGetTransactions (front ++ [last]) cursor =
      some { added := (front ++ [last]).flatMap
               (fun p => p.added.map mapPlaidTransaction),
             modified := (front ++ [last]).flatMap
               (fun p => p.modified.map mapPlaidTransaction),
             removed := (front ++ [last]).flatMap
               (fun p => plaidRemovedIds p.removed),
             nextCursor := last.next_cursor } :=
  plaidDrain_concat front last hfront hlast (cursor.getD "")

/-- C6 witness: a concrete two-page drain. -/
theorem c6_plaid_drains_witness :
    plaidGetTransactions ([c6Page1] ++ [c6Page2]) none =
      some { added := ([c6Page1] ++ [c6Page2]).flatMap
               (fun p => p.added.map mapPlaidTransaction),
             modified := ([c6Page1] ++ [c6Page2]).flatMap
               (fun p => p.modified.map mapPlaidTransaction),
             removed := ([c6Page1] ++ [c6Page2]).flatMap
               (fun p => plaidRemovedIds p.removed),
             nextCursor := c6Page2.next_cursor } :=
  c6_plaid_drains_all_pages [c6Page1] c6Page2 none (by decide) (by decide)

/-- C7 counterexample: the date-range provider does not return every fetched
transaction as `added`. With the connection bound to institution login 1,
the customer-wide fetch returns one transaction belonging to login 2; it is
filtered out, `added` is empty, and the synthesized cursor falls back to the
window start instead of the fetched transaction's timestamp. -/
theorem c7_finicity_filter_counterexample :
    (finicityGetTransactions c7Env c7Client (some "1") none).added = [] ∧
    (c7Client.transactionsIn (finicityFromDate c7Env none)
      (Int.fdiv c7Env.nowMs 1000)).length = 1 ∧
    (finicityGetTransactions c7Env c7Client (some "1") none).nextCursor
      = c7Env.isoOfEpoch (finicityFromDate c7Env none) := by decide

/-- `if b > a then b else a` is `max a b` on integers. -/
theorem if_gt_eq_max (a b : Int) : (if b > a then b else a) = max a b := by
  rw [max_def]
  split <;> split <;> omega

/-- The Finicity transaction loop appends exactly the login-filtered
transactions, mapped, and tracks the running maximum of their observed
epochs. -/
theorem finicityLoop_spec (env : JsDateEnv) (ids : List String) :
    ∀ (txs : List FinicityTransaction) (acc : List RawTransaction)
      (m0 : Int),
      txs.foldl (finicityTxStep env ids) (acc, m0) =
        (acc ++ (txs.filter (fun tx => ids.contains tx.accountId)).map
           (finicityMapTx env),
         (txs.filter (fun tx => ids.contains tx.accountId)).foldl
           (fun m tx => max m (finicityTxEpoch tx)) m0) := by
  intro txs
  induction txs with
  | nil => intro acc m0; simp
  | cons tx rest ih =>
      intro acc m0
      by_cases h : ids.contains tx.accountId = true
      · simp only [List.foldl_cons, finicityTxStep, h, Bool.not_true,
          Bool.false_eq_true, if_false, List.filter_cons_of_pos,
          List.map_cons, if_gt_eq_max]
        rw [ih]
        simp [List.append_assoc]
      · have h2 : ids.contains tx.accountId = false :=
          Bool.eq_false_iff.mpr h
        have h3 : ¬(tx.accountId ∈ ids) := by simpa using h2
        simp only [List.foldl_cons, finicityTxStep, h2, Bool.not_false,
          if_true]
        rw [ih acc m0]
        simp [List.filter_cons, h3]

/-- C7 amended: `FinicityDataProvider.getTransactions` synthesizes its
cursor. Without a cursor it fetches from the fixed 180-day lookback window,
and a truthy cursor is parsed as the start of the date range; every fetched
transaction belonging to the connection's institution-login accounts (and
only those) is returned as `added`, with `modified` and `removed` empty;
and `nextCursor` is the ISO-8601 rendering of the maximal observed epoch
(`transactionDate ?? postedDate`) over the returned set, falling back to
the input cursor, or to the window start when there is no cursor, when no
positive epoch was observed. -/
theorem c7_finicity_date_range_provider (env : JsDateEnv)
    (client : FinicityClientModel) (login : Option String)
    (cursor : Option String) :
    finicityFromDate env none
      = Int.fdiv env.nowMs 1000 - 180 * 24 * 60 * 60 ∧
    (∀ c : String, c ≠ "" →
      finicityFromDate env (some c) = Int.fdiv (env.epochMsOfIso c) 1000) ∧
    (finicityGetTransactions env client login cursor).modified = [] ∧
    (finicityGetTransactions env client login cursor).removed = [] ∧
    (finicityGetTransactions env client login cursor).added =
      ((client.transactionsIn (finicityFromDate env cursor)
          (Int.fdiv env.nowMs 1000)).filter (fun tx =>
        ((filterByLogin env login client.accounts).map
          FinicityAccount.id).contains tx.accountId)).map
        (finicityMapTx env) ∧
    (finicityGetTransactions env client login cursor).nextCursor =
      (if 0 < ((client.transactionsIn (finicityFromDate env cursor)
            (Int.fdiv env.nowMs 1000)).filter (fun tx =>
          ((filterByLogin env login client.accounts).map
            FinicityAccount.id).contains tx.accountId)).foldl
           (fun m tx => max m (finicityTxEpoch tx)) 0
       then env.isoOfEpoch
         (((client.transactionsIn (finicityFromDate env cursor)
             (Int.fdiv env.nowMs 1000)).filter (fun tx =>
           ((filterByLogin env login client.accounts).map
             FinicityAccount.id).contains tx.accountId)).foldl
            (fun m tx => max m (finicityTxEpoch tx)) 0)
       else match cursor with
            | some c => c
            | none => env.isoOfEpoch (finicityFromDate env cursor)) := by
  refine ⟨rfl, ?_, ?_, ?_, ?_, ?_⟩
  · intro c hc
    simp [finicityFromDate, beq_eq_false_iff_ne.mpr hc]
  · rfl
  · rfl
  · simp [finicityGetTransactions, finicityLoop_spec]
  · simp [finicityGetTransactions, finicityLoop_spec]

/-- C7 amended, witness: the two-login customer again; the in-login
transaction is returned and drives the cursor. -/
theorem c7_finicity_date_range_witness :
    (finicityGetTransactions c7Env c7wClient (some "1") none).modified = [] ∧
    (finicityGetTransactions c7Env c7wClient (some "1") none).added =
      ((c7wClient.transactionsIn (finicityFromDate c7Env none)
          (Int.fdiv c7Env.nowMs 1000)).filter (fun tx =>
        ((filterByLogin c7Env (some "1") c7wClient.accounts).map
          FinicityAccount.id).contains tx.accountId)).map
        (finicityMapTx c7Env) ∧
    finicityFromDate c7Env (some "iso:60") = Int.fdiv (c7Env.epochMsOfIso "iso:60") 1000 := by
  have h := c7_finicity_date_range_provider c7Env c7wClient (some "1") none
  exact ⟨h.2.2.1, h.2.2.2.2.1, h.2.1 "iso:60" (by decide)⟩

/-- C9 counterexample: a row whose date no parser accepts is silently
dropped — the import succeeds with `imported = 1, skipped = 0` and an empty
error list, so the per-row data error is not collected anywhere. -/
theorem c9_csv_error_counterexample :
    (importCsv c9Db c9Input c9Env uuidRep "now" []
      [c9RowGood, c9RowBad]).2
      = .ok { imported := 1, skipped := 0, errors := [] } ∧
    normaliseDate c9Env none "bogus!!" = none ∧
    csvRowParses c9Env
      { accountExternalId := "acc1", mapping := {}, dateFormat := none,
        invertAmounts := false } c9RowBad = false := by decide

/-- The CSV row loop, when every row has recognizable date and amount
columns, succeeds and yields exactly one transaction per row that parses. -/
theorem csvProcessRows_ok (env : CsvEnv) (opts : CsvImportOptions) :
    ∀ (rows : List (List (String × String))) (i : Nat),
      (∀ row ∈ rows,
        (resolveCol opts.mapping.date row csvDateCandidates).isSome = true ∧
        (resolveCol opts.mapping.amount row csvAmountCandidates).isSome
          = true) →
      ∃ txs, csvProcessRows env opts i rows = .ok txs ∧
        txs.length = (rows.filter (csvRowParses env opts)).length := by
  intro rows
  induction rows with
  | nil => intro i _; exact ⟨[], rfl, rfl⟩
  | cons row rest ih =>
      intro i hcols
      obtain ⟨hd, ha⟩ := hcols row (List.mem_cons_self row rest)
      obtain ⟨dc, hdc⟩ := Option.isSome_iff_exists.mp hd
      obtain ⟨ac, hac⟩ := Option.isSome_iff_exists.mp ha
      have hrest := fun r hr => hcols r (List.mem_cons_of_mem row hr)
      obtain ⟨txs, htxs, hlen⟩ := ih (i + 1) hrest
      cases hnd : normaliseDate env opts.dateFormat ((row.lookup dc).getD "")
      case none =>
          refine ⟨txs, ?_, ?_⟩
          · simp only [csvProcessRows, hdc, hac, hnd]
            exact htxs
          · rw [hlen, List.filter_cons_of_neg]
            simp [csvRowParses, hdc, hac, hnd]
      case some date =>
          cases hpf : env.jsParseFloat
            (stripAmountChars ((row.lookup ac).getD "0"))
          case none =>
              refine ⟨txs, ?_, ?_⟩
              · simp only [csvProcessRows, hdc, hac, hnd, hpf]
                exact htxs
              · rw [hlen, List.filter_cons_of_neg]
                simp [csvRowParses, hdc, hac, hnd, hpf]
          case some amt =>
              have hparses : csvRowParses env opts row = true := by
                simp [csvRowParses, hdc, hac, hnd, hpf]
              refine ⟨csvRowTx env opts row i date amt :: txs, ?_, ?_⟩
              · simp only [csvProcessRows, hdc, hac, hnd, hpf, htxs]
              · rw [List.filter_cons_of_pos hparses]
                simp [hlen]

/-- The `importCsv` insert loop: every incoming transaction lands in
`imported` or in `skipped`, and the error list is never touched. -/
theorem importTxStep_counts (aid now : String) (uuid : Nat → String)
    (s : List TxRow × Nat × Nat × Nat × List String)
    (tx : RawTransaction) :
    ((importTxStep aid now uuid s tx).2.1
        + (importTxStep aid now uuid s tx).2.2.1
      = s.2.1 + s.2.2.1 + 1) ∧
    (importTxStep aid now uuid s tx).2.2.2.2 = s.2.2.2.2 := by
  simp only [importTxStep]
  split <;> (dsimp only; exact ⟨by omega, rfl⟩)

theorem importFold_counts (aid now : String) (uuid : Nat → String) :
    ∀ (added : List RawTransaction)
      (s : List TxRow × Nat × Nat × Nat × List String),
      ((added.foldl (importTxStep aid now uuid) s).2.1
        + (added.foldl (importTxStep aid now uuid) s).2.2.1
        = s.2.1 + s.2.2.1 + added.length) ∧
      (added.foldl (importTxStep aid now uuid) s).2.2.2.2 = s.2.2.2.2 := by
  intro added
  induction added with
  | nil => intro s; exact ⟨rfl, rfl⟩
  | cons tx rest ih =>
      intro s
      simp only [List.foldl_cons, List.length_cons]
      obtain ⟨h1, h2⟩ := ih (importTxStep aid now uuid s tx)
      obtain ⟨h3, h4⟩ := importTxStep_counts aid now uuid s tx
      exact ⟨by omega, by rw [h2, h4]⟩

/-- C9 amended: per-row data errors are silently skipped, not collected.
When the target account exists and every row carries recognizable date and
amount columns, `importCsv` succeeds, its error list is empty (the list
only ever collects insert-time failures), and every row whose date and
amount parse — and only those — reaches the ledger as an import or a
dedup skip; rows with unparseable dates or NaN amounts are dropped without
aborting the batch. (A structural CSV error or a row without date/amount
columns instead aborts the whole import with a thrown error.) -/
theorem c9_csv_bad_rows_skipped_silently (db : DB) (input : ImportCsvInput)
    (env : CsvEnv) (uuid : Nat → String) (now : String)
    (rows : List (List (String × String))) (account : AccountRow)
    (hacct : db.accounts.find? (fun a => a.id == input.account_id)
      = some account)
    (hcols : ∀ row ∈ rows,
      (resolveCol input.mapping.date row csvDateCandidates).isSome = true ∧
      (resolveCol input.mapping.amount row csvAmountCandidates).isSome
        = true) :
    ∃ res, (importCsv db input env uuid now [] rows).2 = .ok res ∧
      res.errors = [] ∧
      res.imported + res.skipped =
        (rows.filter (csvRowParses env
          { accountExternalId := input.account_id,
            mapping := input.mapping, dateFormat := input.date_format,
            invertAmounts := input.invert_amounts })).length := by
  obtain ⟨txs, htxs, hlen⟩ := csvProcessRows_ok env
    { accountExternalId := input.account_id, mapping := input.mapping,
      dateFormat := input.date_format,
      invertAmounts := input.invert_amounts } rows 0 hcols
  obtain ⟨hsum, herrs⟩ := importFold_counts input.account_id now uuid
    txs (db.transactions, 0, 0, 0, [])
  refine ⟨{ imported := (txs.foldl (importTxStep input.account_id now uuid)
              (db.transactions, 0, 0, 0, [])).2.1,
            skipped := (txs.foldl (importTxStep input.account_id now uuid)
              (db.transactions, 0, 0, 0, [])).2.2.1,
            errors := (txs.foldl (importTxStep input.account_id now uuid)
              (db.transactions, 0, 0, 0, [])).2.2.2.2 }, ?_, ?_, ?_⟩
  · simp only [importCsv, hacct, csvGetTransactions, htxs]
  · simpa using herrs
  · simp only [← hlen]
    simpa using hsum

/-- C9 amended, witness: the good/bad row pair — one import, no skip, no
recorded error, matching the number of parsing rows. -/
theorem c9_csv_bad_rows_witness :
    ∃ res, (importCsv c9Db c9Input c9Env uuidRep "now" []
      [c9RowGood, c9RowBad]).2 = .ok res ∧
      res.errors = [] ∧
      res.imported + res.skipped =
        ([c9RowGood, c9RowBad].filter (csvRowParses c9Env
          { accountExternalId := c9Input.account_id,
            mapping := c9Input.mapping, dateFormat := c9Input.date_format,
            invertAmounts := c9Input.invert_amounts })).length :=
  c9_csv_bad_rows_skipped_silently c9Db c9Input c9Env uuidRep "now"
    [c9RowGood, c9RowBad] (exAccount "acc1" "manual" none none)
    (by decide) (by decide)

/-- C8: relinking an already-connected institution is a distinguished
successful outcome, not an error. For Plaid, a completed link session whose
exchanged item collides with an existing connection by `item_id`, or — when
the item is new — whose institution collides by `institution_id`, yields
`duplicate` carrying the existing connection id, leaves the connection
table untouched (no second row), and releases the freshly created upstream
item via `itemRemove`. For Coinbase, a second link attempt against the
single global `provider = 'coinbase'` connection likewise returns
`duplicate` with the existing id and inserts nothing. -/
theorem c8_duplicate_link_detection :
    (∀ (db : DB) (env : PlaidLinkEnv) (syncEnv : SyncEnv)
       (instName : Option String) (pt accessToken itemId : String)
       (ex : ProviderConnectionRow),
       plaidPoll env.sessions = .ok (some pt) →
       env.exchange pt = .ok (accessToken, itemId) →
       db.connections.find? (fun c => c.item_id == some itemId) = some ex →
       completePlaidLink db env syncEnv instName =
         (db, [LinkAction.itemRemove accessToken],
          .ok (.duplicate ex.id ex.institution_name))) ∧
    (∀ (db : DB) (env : PlaidLinkEnv) (syncEnv : SyncEnv)
       (instName : Option String) (pt accessToken itemId iid : String)
       (ex : ProviderConnectionRow),
       plaidPoll env.sessions = .ok (some pt) →
       env.exchange pt = .ok (accessToken, itemId) →
       db.connections.find? (fun c => c.item_id == some itemId) = none →
       env.accountsGet accessToken = .ok (some iid) →
       iid ≠ "" →
       db.connections.find? (fun c => c.institution_id == some iid)
         = some ex →
       completePlaidLink db env syncEnv instName =
         (db, [LinkAction.itemRemove accessToken],
          .ok (.duplicate ex.id ex.institution_name))) ∧
    (∀ (db : DB) (cenv : CoinbaseLinkEnv) (syncEnv : SyncEnv)
       (k s : String) (ex : ProviderConnectionRow),
       cenv.testGetAccounts = .ok () →
       db.connections.find? (fun c => c.provider == "coinbase") = some ex →
       linkCoinbase db cenv syncEnv k s = (db, [], .ok (.duplicate ex.id))) := by
  refine ⟨?_, ?_, ?_⟩
  · intro db env syncEnv instName pt accessToken itemId ex hpoll hex hitem
    simp only [completePlaidLink, hpoll, hex, hitem]
  · intro db env syncEnv instName pt accessToken itemId iid ex hpoll hex
      hitem hacc hiid hinst
    have hiid2 : (iid == "") = false := beq_eq_false_iff_ne.mpr hiid
    simp only [completePlaidLink, hpoll, hex, hitem, hacc, optTruthy, hiid2,
      Bool.false_eq_true, if_false, hinst]
  · intro db cenv syncEnv k s ex htest hdup
    simp only [linkCoinbase, htest, hdup]

/-- C8 witness: the concrete duplicate scenarios — item-id duplicate,
institution-id duplicate, and Coinbase provider duplicate. -/
theorem c8_duplicate_link_witness :
    completePlaidLink c8DbItem c8Env c8SyncEnv (some "Chase") =
      (c8DbItem, [LinkAction.itemRemove "access-1"],
       .ok (.duplicate "c0" (some "Bank"))) ∧
    completePlaidLink c8Db c8Env c8SyncEnv (some "Chase") =
      (c8Db, [LinkAction.itemRemove "access-1"],
       .ok (.duplicate "c0" (some "Bank"))) ∧
    linkCoinbase c8CoinbaseDb c8CoinbaseEnv c8SyncEnv "k" "s" =
      (c8CoinbaseDb, [], .ok (.duplicate "cb1")) := by
  obtain ⟨h1, h2, h3⟩ := c8_duplicate_link_detection
  refine ⟨?_, ?_, ?_⟩
  · have := h1 c8DbItem c8Env c8SyncEnv (some "Chase") "pub-1" "access-1"
      "item-1" c8ConnItem (by decide) (by decide) (by decide)
    simpa using this
  · have := h2 c8Db c8Env c8SyncEnv (some "Chase") "pub-1" "access-1"
      "item-1" "ins_9" c8ConnInst (by decide) (by decide) (by decide)
      (by decide) (by decide) (by decide)
    simpa using this
  · have := h3 c8CoinbaseDb c8CoinbaseEnv c8SyncEnv "k" "s"
      (exConn "cb1" "coinbase") (by decide) (by decide)
    simpa using this

/-- The length of a filter by a disjunction of disjoint predicates splits
into a sum. -/
theorem length_filter_or_disjoint {α : Type} (l : List α) (p q : α → Bool)
    (h : ∀ x ∈ l, ¬(p x = true ∧ q x = true)) :
    (l.filter (fun x => p x || q x)).length
      = (l.filter p).length + (l.filter q).length := by
  induction l with
  | nil => rfl
  | cons x xs ih =>
      have hx := h x (List.mem_cons_self x xs)
      have ihx := ih (fun y hy => h y (List.mem_cons_of_mem x hy))
      by_cases hp : p x = true
      · have hq : q x = false := by
          by_cases hq1 : q x = true
          · exact absurd ⟨hp, hq1⟩ hx
          · exact Bool.eq_false_iff.mpr hq1
        simp [List.filter_cons, hp, hq, ihx]
        omega
      · have hp2 : p x = false := Bool.eq_false_iff.mpr hp
        by_cases hq : q x = true
        · simp [List.filter_cons, hp2, hq, ihx]
          omega
        · have hq2 : q x = false := Bool.eq_false_iff.mpr hq
          simp [List.filter_cons, hp2, hq2, ihx]

/-- Under the accounts table's primary-key constraint, rows are determined
by their id. -/
theorem accountsTableOk_id_inj (l : List AccountRow)
    (hok : accountsTableOk l = true) :
    ∀ a ∈ l, ∀ b ∈ l, a.id = b.id → a = b := by
  induction l with
  | nil => intro a ha; exact absurd ha (List.not_mem_nil a)
  | cons x xs ih =>
      simp only [accountsTableOk, Bool.and_eq_true, List.all_eq_true] at hok
      intro a ha b hb heq
      rcases List.mem_cons.mp ha with rfl | ha2
      · rcases List.mem_cons.mp hb with rfl | hb2
        · rfl
        · exact absurd heq (by simpa [bne_iff_ne] using hok.1 b hb2)
      · rcases List.mem_cons.mp hb with rfl | hb2
        · exact absurd heq.symm (by simpa [bne_iff_ne] using hok.1 a ha2)
        · exact ih hok.2 a ha2 b hb2 heq

/-- The primary-key constraint makes the id column duplicate-free. -/
theorem accountsTableOk_nodup_ids (l : List AccountRow)
    (hok : accountsTableOk l = true) : (l.map AccountRow.id).Nodup := by
  induction l with
  | nil => exact List.nodup_nil
  | cons x xs ih =>
      simp only [accountsTableOk, Bool.and_eq_true, List.all_eq_true] at hok
      refine List.nodup_cons.mpr ⟨?_, ih hok.2⟩
      intro hmem
      obtain ⟨b, hb, hbid⟩ := List.mem_map.mp hmem
      have hne : x.id ≠ b.id := by simpa [bne_iff_ne] using hok.1 b hb
      exact hne hbid.symm

/-- Deleting key `ca` and then everything keyed in `rest` filters exactly
like deleting everything keyed in `ca :: rest`. -/
theorem filter_not_contains_cons {α : Type} (l : List α) (key : α → String)
    (ca : String) (rest : List String) :
    (l.filter (fun a => !(key a == ca))).filter
        (fun a => !(rest.contains (key a)))
      = l.filter (fun a => !((ca :: rest).contains (key a))) := by
  rw [List.filter_filter]
  apply List.filter_congr
  intro a _
  simp only [List.contains_cons, Bool.not_or]
  rw [Bool.and_comm]

/-- The rows keyed `ca` plus the surviving rows keyed in `rest` count
exactly the rows keyed in `ca :: rest`. -/
theorem count_contains_cons {α : Type} (l : List α) (key : α → String)
    (ca : String) (rest : List String)
    (hnotin : ∀ x : String, rest.contains x = true → (x == ca) = false) :
    (l.filter (fun a => key a == ca)).length
      + ((l.filter (fun a => !(key a == ca))).filter
          (fun a => rest.contains (key a))).length
      = (l.filter (fun a => (ca :: rest).contains (key a))).length := by
  rw [List.filter_filter]
  have hstep : ∀ a ∈ l,
      ((fun a => (ca :: rest).contains (key a)) a)
        = ((fun a => (key a == ca) || rest.contains (key a)) a) := by
    intro a _
    exact List.contains_cons
  rw [List.filter_congr hstep,
    length_filter_or_disjoint l (fun a => key a == ca)
      (fun a => rest.contains (key a))]
  · have hinner : ∀ a ∈ l,
        ((fun a => rest.contains (key a) && !(key a == ca)) a)
          = ((fun a => rest.contains (key a)) a) := by
      intro a _
      by_cases hc : rest.contains (key a) = true
      · have hne := hnotin (key a) hc
        simp only [hc, hne, Bool.not_false, Bool.and_true]
      · simp only [Bool.eq_false_iff.mpr hc, Bool.false_and]
    rw [List.filter_congr hinner]
  · intro a _ hand
    have hne := hnotin (key a) hand.2
    rw [hand.1] at hne
    simp at hne

/-- The connection-deletion loop of `deleteAccount`, run over duplicate-free
account ids, deletes exactly those accounts with their transactions and
holdings (via the cascade) and totals the per-account counts. -/
theorem deleteConnLoop_spec :
    ∀ (ids : List String) (db : DB) (t0 h0 n0 : Nat), ids.Nodup →
      ids.foldl deleteConnAccountStep (db, t0, h0, n0) =
        ({ accounts := db.accounts.filter (fun a => !(ids.contains a.id)),
           transactions := db.transactions.filter (fun t =>
             !(ids.contains t.account_id)),
           holdings := db.holdings.filter (fun h =>
             !(ids.contains h.account_id)),
           connections := db.connections },
         t0 + (db.transactions.filter (fun t =>
           ids.contains t.account_id)).length,
         h0 + (db.holdings.filter (fun h =>
           ids.contains h.account_id)).length,
         n0 + ids.length) := by
  intro ids
  induction ids with
  | nil =>
      intro db t0 h0 n0 _
      simp [List.foldl_nil]
  | cons ca rest ih =>
      intro db t0 h0 n0 hnd
      obtain ⟨hca, hrest⟩ := List.nodup_cons.mp hnd
      have hnotin : ∀ x : String, rest.contains x = true → (x == ca) = false := by
        intro x hx
        have hxmem : x ∈ rest := by simpa using hx
        exact beq_eq_false_iff_ne.mpr (fun hxe => hca (hxe ▸ hxmem))
      simp only [List.foldl_cons, deleteConnAccountStep, cascadeDeleteAccount]
      rw [ih _ (t0 + (db.transactions.filter
            (fun t => t.account_id == ca)).length)
          (h0 + (db.holdings.filter (fun h => h.account_id == ca)).length)
          (n0 + 1) hrest]
      simp only [Prod.mk.injEq, DB.mk.injEq, List.length_cons]
      refine ⟨⟨?_, ?_, ?_, trivial⟩, ?_, ?_, by omega⟩
      · exact filter_not_contains_cons db.accounts AccountRow.id ca rest
      · exact filter_not_contains_cons db.transactions TxRow.account_id ca rest
      · exact filter_not_contains_cons db.holdings HoldingRow.account_id ca rest
      · have := count_contains_cons db.transactions TxRow.account_id ca rest
          hnotin
        omega
      · have := count_contains_cons db.holdings HoldingRow.account_id ca rest
          hnotin
        omega

/-- C10: `deleteAccount` on an account wired to an existing connection
removes the entire connection — every account with that `connection_id`
(siblings included) is deleted together with its transactions and holdings
via the cascade, the `provider_connections` row is deleted, the returned
counts total the removed rows, and none of this depends on the credential
store or the provider `disconnect` outcome (`env` is arbitrary: failures
are swallowed). On an account with no connection, only that account and
its own transactions/holdings are deleted. -/
theorem c10_delete_account_cascades (db : DB) (id : String)
    (env : RemovalEnv) (account : AccountRow)
    (hfind : db.accounts.find? (fun a => a.id == id) = some account)
    (hok : accountsTableOk db.accounts = true) :
    (∀ cid conn, account.connection_id = some cid →
      db.connections.find? (fun c => c.id == cid) = some conn →
      deleteAccount db id env =
        ({ accounts := db.accounts.filter (fun a =>
             !(a.connection_id == some cid)),
           transactions := db.transactions.filter (fun t =>
             !(((db.accounts.filter (fun a =>
               a.connection_id == some cid)).map
                 AccountRow.id).contains t.account_id)),
           holdings := db.holdings.filter (fun h =>
             !(((db.accounts.filter (fun a =>
               a.connection_id == some cid)).map
                 AccountRow.id).contains h.account_id)),
           connections := db.connections.filter (fun c => !(c.id == cid)) },
         .ok { deleted_accounts := (db.accounts.filter (fun a =>
                 a.connection_id == some cid)).length,
               deleted_transactions := (db.transactions.filter (fun t =>
                 ((db.accounts.filter (fun a =>
                   a.connection_id == some cid)).map
                     AccountRow.id).contains t.account_id)).length,
               deleted_holdings := (db.holdings.filter (fun h =>
                 ((db.accounts.filter (fun a =>
                   a.connection_id == some cid)).map
                     AccountRow.id).contains h.account_id)).length,
               connection_removed := true })) ∧
    (account.connection_id = none →
      deleteAccount db id env =
        (cascadeDeleteAccount db id,
         .ok { deleted_accounts := 1,
               deleted_transactions := (db.transactions.filter (fun t =>
                 t.account_id == id)).length,
               deleted_holdings := (db.holdings.filter (fun h =>
                 h.account_id == id)).length,
               connection_removed := false })) := by
  constructor
  · intro cid conn hcid hconn
    have hconnid : conn.id = cid := by
      have h2 := List.find?_some hconn
      simpa using h2
    have hamem : account ∈ db.accounts := List.mem_of_find?_eq_some hfind
    have hids_nodup : ((db.accounts.filter (fun a =>
        a.connection_id == some cid)).map AccountRow.id).Nodup :=
      (accountsTableOk_nodup_ids db.accounts hok).sublist
        (List.Sublist.map AccountRow.id (List.filter_sublist db.accounts))
    have hpoint : ∀ a ∈ db.accounts,
        ((db.accounts.filter (fun x => x.connection_id == some cid)).map
          AccountRow.id).contains a.id = (a.connection_id == some cid) := by
      intro a ha
      rw [Bool.eq_iff_iff]
      constructor
      · intro hc
        have hmem : a.id ∈ (db.accounts.filter (fun x =>
            x.connection_id == some cid)).map AccountRow.id := by
          simpa using hc
        obtain ⟨b, hb, hbid⟩ := List.mem_map.mp hmem
        obtain ⟨hbmem, hbpred⟩ := List.mem_filter.mp hb
        have hba : b = a :=
          accountsTableOk_id_inj db.accounts hok b hbmem a ha hbid
        exact hba ▸ hbpred
      · intro hpred
        have hmemf : a ∈ db.accounts.filter (fun x =>
            x.connection_id == some cid) := List.mem_filter.mpr ⟨ha, hpred⟩
        have : a.id ∈ (db.accounts.filter (fun x =>
            x.connection_id == some cid)).map AccountRow.id :=
          List.mem_map.mpr ⟨a, hmemf, rfl⟩
        simpa using this
    have haccid : account.id ∈ (db.accounts.filter (fun x =>
        x.connection_id == some cid)).map AccountRow.id :=
      List.mem_map.mpr ⟨account,
        List.mem_filter.mpr ⟨hamem, by simp [hcid]⟩, rfl⟩
    simp only [deleteAccount, hfind, hcid, hconn, hconnid]
    rw [deleteConnLoop_spec _ db 0 0 0 hids_nodup]
    have hne : ((db.accounts.filter (fun x =>
        x.connection_id == some cid)).map AccountRow.id).length ≠ 0 := by
      intro h0
      rw [List.length_eq_zero] at h0
      rw [h0] at haccid
      exact List.not_mem_nil _ haccid
    have hbeq : (0 + ((db.accounts.filter (fun x =>
        x.connection_id == some cid)).map AccountRow.id).length == 0)
        = false := by
      simpa using hne
    simp only [hbeq, Bool.false_eq_true, if_false, deleteConnectionRow]
    have hmapid : (db.accounts.filter (fun a =>
        !(((db.accounts.filter (fun x => x.connection_id == some cid)).map
          AccountRow.id).contains a.id))).map (fun a =>
            if a.connection_id == some cid
            then { a with connection_id := none } else a)
        = db.accounts.filter (fun a =>
            !(((db.accounts.filter (fun x =>
              x.connection_id == some cid)).map
                AccountRow.id).contains a.id)) := by
      rw [List.map_congr_left, List.map_id]
      intro a ha
      obtain ⟨hamem2, hapred⟩ := List.mem_filter.mp ha
      have hcontains : ((db.accounts.filter (fun x =>
          x.connection_id == some cid)).map AccountRow.id).contains a.id
          = false := by
        cases h2 : ((db.accounts.filter (fun x =>
            x.connection_id == some cid)).map AccountRow.id).contains a.id
        · rfl
        · rw [h2] at hapred; exact absurd hapred (by simp)
      have hpred2 : (a.connection_id == some cid) = false := by
        rw [← hpoint a hamem2]; exact hcontains
      simp [hpred2]
    simp only [Prod.mk.injEq, DB.mk.injEq, DeleteAccountResult.mk.injEq,
      Except.ok.injEq]
    and_intros
    · rw [hmapid]
      apply List.filter_congr
      intro a ha
      rw [hpoint a ha]
    · trivial
    · trivial
    · trivial
    · rw [Nat.zero_add]
      exact (db.accounts.filter (fun x =>
        x.connection_id == some cid)).length_map AccountRow.id
    · omega
    · omega
    · trivial
  · intro hnone
    simp only [deleteAccount, hfind, hnone]

/-- C10 witness: the concrete ledger — deleting the connection-owned `a1`
removes `a1`, its sibling `a2`, their rows and the connection, while the
manual `a3` path removes only `a3` and its own rows. -/
theorem c10_delete_account_witness :
    deleteAccount c10Db "a1" c5Env =
      ({ accounts := c10Db.accounts.filter (fun a =>
           !(a.connection_id == some "c1")),
         transactions := c10Db.transactions.filter (fun t =>
           !(((c10Db.accounts.filter (fun a =>
             a.connection_id == some "c1")).map
               AccountRow.id).contains t.account_id)),
         holdings := c10Db.holdings.filter (fun h =>
           !(((c10Db.accounts.filter (fun a =>
             a.connection_id == some "c1")).map
               AccountRow.id).contains h.account_id)),
         connections := c10Db.connections.filter (fun c =>
           !(c.id == "c1")) },
       .ok { deleted_accounts := (c10Db.accounts.filter (fun a =>
               a.connection_id == some "c1")).length,
             deleted_transactions := (c10Db.transactions.filter (fun t =>
               ((c10Db.accounts.filter (fun a =>
                 a.connection_id == some "c1")).map
                   AccountRow.id).contains t.account_id)).length,
             deleted_holdings := (c10Db.holdings.filter (fun h =>
               ((c10Db.accounts.filter (fun a =>
                 a.connection_id == some "c1")).map
                   AccountRow.id).contains h.account_id)).length,
             connection_removed := true }) ∧
    deleteAccount c10Db "a3" c5Env =
      (cascadeDeleteAccount c10Db "a3",
       .ok { deleted_accounts := 1,
             deleted_transactions := (c10Db.transactions.filter (fun t =>
               t.account_id == "a3")).length,
             deleted_holdings := (c10Db.holdings.filter (fun h =>
               h.account_id == "a3")).length,
             connection_removed := false }) := by
  constructor
  · exact (c10_delete_account_cascades c10Db "a1" c5Env
      (exAccount "a1" "plaid" (some "e1") (some "c1")) (by decide)
      (by decide)).1 "c1" (exConn "c1" "plaid") (by decide) (by decide)
  · exact (c10_delete_account_cascades c10Db "a3" c5Env
      (exAccount "a3" "manual" none none) (by decide) (by decide)).2
      (by decide)

/-- On the success path, `syncConnection` is exactly `syncSuccess`. -/
theorem syncConnection_ok_char (db : DB) (id : String) (env : SyncEnv)
    (conn : ProviderConnectionRow) (cred : String) (P : DataProvider)
    (raws : List RawAccount) (fetched : TxSyncResult)
    (bals : List RawBalance)
    (hfind : db.connections.find? (fun c => c.id == id) = some conn)
    (hcred : env.getCredential conn.keychain_key = some cred)
    (hcreate : env.registryCreate conn.provider cred
      { item_id := conn.item_id, institution_id := conn.institution_id,
        institution_name := conn.institution_name } = .ok P)
    (hacc : P.getAccounts = .ok raws)
    (htx : P.getTransactions conn.cursor = .ok fetched)
    (hbal : P.getBalances = .ok bals) :
    syncConnection db id env = syncSuccess db id env conn raws fetched bals := by
  simp only [syncConnection, hfind, hcred, hcreate, hacc, htx, hbal,
    syncSuccess]

/-- The last element of a chain of appends is the last element of its final
segment. -/
theorem getLast?_append_right {α : Type} (l1 : List α) :
    ∀ (l2 : List α) (a : α), l2.getLast? = some a →
      (l1 ++ l2).getLast? = some a := by
  induction l1 with
  | nil => intro l2 a h; exact h
  | cons x xs ih =>
      intro l2 a h
      have h2 := ih l2 a h
      cases hxe : xs ++ l2 with
      | nil => rw [hxe] at h2; simp at h2
      | cons y ys =>
          rw [List.cons_append, hxe, List.getLast?_cons_cons, ← hxe]
          exact h2

/-- `updateConnRun` updates the found row in place. -/
theorem find?_updateConnRun (conns : List ProviderConnectionRow)
    (id c ts : String) (conn : ProviderConnectionRow)
    (hfind : conns.find? (fun x => x.id == id) = some conn) :
    (updateConnRun conns id c ts).find? (fun x => x.id == id)
      = some { conn with
               cursor := some c, last_synced_at := some ts,
               updated_at := ts } := by
  induction conns with
  | nil => simp at hfind
  | cons x rest ih =>
      cases hx : (x.id == id) with
      | true =>
          have hxc : x = conn := by
            simp only [List.find?, hx] at hfind
            simpa using hfind
          subst hxc
          simp only [updateConnRun, List.map_cons, hx, if_true]
          exact List.find?_cons_of_pos _ hx
      | false =>
          simp only [List.find?, hx] at hfind
          have ih2 := ih hfind
          simp only [updateConnRun, List.map_cons, hx, Bool.false_eq_true,
            if_false]
          simp only [updateConnRun] at ih2
          simp only [List.find?, hx]
          exact ih2

/-- C1: within `syncConnection`, a throw from the provider's `getAccounts`,
`getTransactions` or `getBalances` propagates as the call's error and
leaves the `provider_connections` table — cursor and `last_synced_at`
included — exactly as it was; and a sync that completes without error
performs the cursor/timestamp write as its final database write, leaving
the connection row carrying the fetched `nextCursor` and the sync
timestamp. -/
theorem c1_cursor_write_is_last (db : DB) (id : String) (env : SyncEnv)
    (conn : ProviderConnectionRow) (cred : String) (P : DataProvider)
    (hfind : db.connections.find? (fun c => c.id == id) = some conn)
    (hcred : env.getCredential conn.keychain_key = some cred)
    (hcreate : env.registryCreate conn.provider cred
      { item_id := conn.item_id, institution_id := conn.institution_id,
        institution_name := conn.institution_name } = .ok P) :
    (∀ e : String,
      (P.getAccounts = .error e ∨
       (∃ raws, P.getAccounts = .ok raws ∧
         P.getTransactions conn.cursor = .error e) ∨
       (∃ raws fetched, P.getAccounts = .ok raws ∧
         P.getTransactions conn.cursor = .ok fetched ∧
         P.getBalances = .error e)) →
      (syncConnection db id env).2.2 = .error e ∧
      (syncConnection db id env).1.connections = db.connections) ∧
    (∀ raws fetched bals, P.getAccounts = .ok raws →
      P.getTransactions conn.cursor = .ok fetched →
      P.getBalances = .ok bals →
      ((syncConnection db id env).2.1).getLast?
        = some (DbWrite.connUpdate id fetched.nextCursor env.ts) ∧
      (syncConnection db id env).1.connections.find?
          (fun c => c.id == id)
        = some { conn with
                 cursor := some fetched.nextCursor,
                 last_synced_at := some env.ts, updated_at := env.ts }) := by
  constructor
  · intro e herr
    rcases herr with h1 | ⟨raws, h1, h2⟩ | ⟨raws, fetched, h1, h2, h3⟩
    · refine ⟨?_, ?_⟩ <;>
        simp only [syncConnection, hfind, hcred, hcreate, h1]
    · refine ⟨?_, ?_⟩ <;>
        simp only [syncConnection, hfind, hcred, hcreate, h1, h2]
    · refine ⟨?_, ?_⟩ <;>
        simp only [syncConnection, hfind, hcred, hcreate, h1, h2, h3]
  · intro raws fetched bals hacc htx hbal
    rw [syncConnection_ok_char db id env conn cred P raws fetched bals
      hfind hcred hcreate hacc htx hbal]
    constructor
    · simp only [syncSuccess]
      exact List.getLast?_concat _
    · simp only [syncSuccess]
      exact find?_updateConnRun db.connections id fetched.nextCursor env.ts
        conn hfind

/-- C1 witness: a concrete connection where the balance fetch throws (error
propagated, connection row untouched) and the same sync succeeding (last
write is the cursor update). -/
theorem c1_cursor_write_witness :
    ((syncConnection c1Db "c1" c1EnvFail).2.2 = .error "balance boom" ∧
     (syncConnection c1Db "c1" c1EnvFail).1.connections
       = c1Db.connections) ∧
    ((syncConnection c1Db "c1" c1EnvOk).2.1).getLast?
      = some (DbWrite.connUpdate "c1" "cur1" "ts1") := by
  refine ⟨?_, ?_⟩
  · exact (c1_cursor_write_is_last c1Db "c1" c1EnvFail
      (exConn "c1" "plaid") "cred" c1ProviderFail (by decide) rfl rfl).1
      "balance boom"
      (Or.inr (Or.inr ⟨[exRawAccount "a1" "A"],
        { added := [exRawTx "t1" "a1"], modified := [], removed := [],
          nextCursor := "cur1" }, rfl, rfl, rfl⟩))
  · exact ((c1_cursor_write_is_last c1Db "c1" c1EnvOk
      (exConn "c1" "plaid") "cred" c1ProviderOk (by decide) rfl rfl).2
      [exRawAccount "a1" "A"]
      { added := [exRawTx "t1" "a1"], modified := [], removed := [],
        nextCursor := "cur1" } [] rfl rfl rfl).1

/-- `findAccountBy` reads only the `(id, source, external_id)` projection:
lists with equal projections produce matches with equal ids. -/
theorem findAccountBy_map_key (p e : String) :
    ∀ (l1 l2 : List AccountRow),
      l1.map accountKey = l2.map accountKey →
      Option.map AccountRow.id (findAccountBy l1 p e)
        = Option.map AccountRow.id (findAccountBy l2 p e) := by
  intro l1
  induction l1 with
  | nil =>
      intro l2 h
      have : l2 = [] := by
        cases l2 with
        | nil => rfl
        | cons b t2 => simp at h
      subst this
      rfl
  | cons a t1 ih =>
      intro l2 h
      cases l2 with
      | nil => simp at h
      | cons b t2 =>
          simp only [List.map_cons, List.cons.injEq] at h
          obtain ⟨hk, ht⟩ := h
          have hid : a.id = b.id := congrArg (fun k => k.1) hk
          have hsrc : a.source = b.source := congrArg (fun k => k.2.1) hk
          have hext : a.external_id = b.external_id :=
            congrArg (fun k => k.2.2) hk
          have hpred : (a.source == p && a.external_id == some e)
              = (b.source == p && b.external_id == some e) := by
            rw [hsrc, hext]
          simp only [findAccountBy, List.find?]
          cases hpa : (b.source == p && b.external_id == some e) with
          | true =>
              rw [hpred, hpa]
              simpa using hid
          | false =>
              rw [hpred, hpa]
              exact ih t2 ht

/-- The in-place account update preserves the key projection. -/
theorem updateAccountRun_map_key (l : List AccountRow) (raw : RawAccount)
    (ts i0 : String) :
    (updateAccountRun l raw ts i0).map accountKey = l.map accountKey := by
  simp only [updateAccountRun, List.map_map]
  apply List.map_congr_left
  intro a _
  by_cases h : (a.id == i0) = true <;> simp [Function.comp, h, accountKey]

/-- The in-place account update preserves the id column. -/
theorem updateAccountRun_map_id (l : List AccountRow) (raw : RawAccount)
    (ts i0 : String) :
    (updateAccountRun l raw ts i0).map AccountRow.id = l.map AccountRow.id := by
  simp only [updateAccountRun, List.map_map]
  apply List.map_congr_left
  intro a _
  by_cases h : (a.id == i0) = true <;> simp [Function.comp, h]

/-- One balance write preserves the key projection of the accounts table. -/
theorem balanceStep_map_key (ts : String) (m : List (String × String))
    (s : List AccountRow × List DbWrite) (bal : RawBalance) :
    (balanceStep ts m s bal).1.map accountKey = s.1.map accountKey := by
  simp only [balanceStep]
  cases m.lookup bal.account_external_id with
  | none => rfl
  | some accountId =>
      by_cases h : (accountId == "") = true
      · simp [h]
      · simp only [h, Bool.false_eq_true, if_false]
        simp only [List.map_map]
        apply List.map_congr_left
        intro a _
        by_cases h2 : (a.id == accountId) = true <;>
          simp [Function.comp, h2, accountKey]

/-- The whole balance refresh preserves the key projection. -/
theorem syncBalancesFold_map_key (ts : String) (m : List (String × String)) :
    ∀ (bals : List RawBalance) (s : List AccountRow × List DbWrite),
      (bals.foldl (balanceStep ts m) s).1.map accountKey
        = s.1.map accountKey := by
  intro bals
  induction bals with
  | nil => intro s; rfl
  | cons bal rest ih =>
      intro s
      rw [List.foldl_cons, ih (balanceStep ts m s bal),
        balanceStep_map_key]

/-- Looking a key up in a consed association map. -/
theorem lookup_cons_isSome (k v e : String) (m : List (String × String)) :
    (((k, v) :: m).lookup e).isSome = ((e == k) || (m.lookup e).isSome) := by
  cases h : (e == k) <;> simp [List.lookup, h]

/-- A match found in the prefix of an appended list is the overall match. -/
theorem find?_append_of_some {α : Type} (p : α → Bool) (l2 : List α) (x : α) :
    ∀ l1 : List α, l1.find? p = some x → (l1 ++ l2).find? p = some x := by
  intro l1
  induction l1 with
  | nil => intro h; simp at h
  | cons a t ih =>
      intro h
      cases hp : p a with
      | true =>
          rw [List.find?_cons_of_pos _ hp] at h
          rw [List.cons_append]
          rw [List.find?_cons_of_pos _ hp]
          exact h
      | false =>
          rw [List.find?_cons_of_neg _ (by simp [hp])] at h
          rw [List.cons_append, List.find?_cons_of_neg _ (by simp [hp])]
          exact ih h

/-- With no match in the prefix, searching an appended list searches the
suffix. -/
theorem find?_append_of_none {α : Type} (p : α → Bool) (l2 : List α) :
    ∀ l1 : List α, l1.find? p = none → (l1 ++ l2).find? p = l2.find? p := by
  intro l1
  induction l1 with
  | nil => intro _; rfl
  | cons a t ih =>
      intro h
      cases hp : p a with
      | true => rw [List.find?_cons_of_pos _ hp] at h; simp at h
      | false =>
          rw [List.find?_cons_of_neg _ (by simp [hp])] at h
          rw [List.cons_append, List.find?_cons_of_neg _ (by simp [hp])]
          exact ih h

/-- Every iteration of the account loop pushes exactly one binding, keyed by
the raw account's external id, onto the in-memory map. -/
theorem accountStep_idMap (provider ts : String) (uuid : Nat → String)
    (s : AccSyncState) (raw : RawAccount) :
    ∃ v, (accountStep provider ts uuid s raw).idMap
      = (raw.external_id, v) :: s.idMap := by
  simp only [accountStep]
  cases findAccountBy s.accounts provider raw.external_id with
  | none => exact ⟨uuid s.counter, rfl⟩
  | some existing => exact ⟨existing.id, rfl⟩

/-- A key bound in the in-memory map stays bound through the rest of the
account loop. -/
theorem accFold_lookup_mono (provider ts : String) (uuid : Nat → String) :
    ∀ (raws : List RawAccount) (s : AccSyncState) (e : String),
      (s.idMap.lookup e).isSome = true →
      (((raws.foldl (accountStep provider ts uuid) s).idMap).lookup e).isSome
        = true := by
  intro raws
  induction raws with
  | nil => intro s e h; exact h
  | cons raw rest ih =>
      intro s e h
      rw [List.foldl_cons]
      apply ih
      obtain ⟨v, hv⟩ := accountStep_idMap provider ts uuid s raw
      rw [hv, lookup_cons_isSome, h, Bool.or_true]

/-- After the account loop, every processed raw account's external id is
bound in the in-memory map. -/
theorem accFold_covers (provider ts : String) (uuid : Nat → String) :
    ∀ (raws : List RawAccount) (s : AccSyncState) (raw : RawAccount),
      raw ∈ raws →
      (((raws.foldl (accountStep provider ts uuid) s).idMap).lookup
        raw.external_id).isSome = true := by
  intro raws
  induction raws with
  | nil => intro s raw h; simp at h
  | cons a rest ih =>
      intro s raw h
      rw [List.foldl_cons]
      rcases List.mem_cons.mp h with h1 | h2
      · subst h1
        apply accFold_lookup_mono
        obtain ⟨v, hv⟩ := accountStep_idMap provider ts uuid s raw
        rw [hv, lookup_cons_isSome]
        simp
      · exact ih _ raw h2

/-- Every key bound after the account loop was either bound before it or is
the external id of one of the processed raw accounts. -/
theorem accFold_dom (provider ts : String) (uuid : Nat → String) :
    ∀ (raws : List RawAccount) (s : AccSyncState) (e : String),
      (((raws.foldl (accountStep provider ts uuid) s).idMap).lookup e).isSome
          = true →
      (s.idMap.lookup e).isSome = true ∨ ∃ raw ∈ raws, raw.external_id = e := by
  intro raws
  induction raws with
  | nil => intro s e h; exact Or.inl h
  | cons a rest ih =>
      intro s e h
      rw [List.foldl_cons] at h
      rcases ih _ e h with h1 | ⟨raw, hmem, hext⟩
      · obtain ⟨v, hv⟩ := accountStep_idMap provider ts uuid s a
        rw [hv, lookup_cons_isSome] at h1
        rcases Bool.or_eq_true_iff.mp h1 with hk | hrest
        · exact Or.inr ⟨a, List.mem_cons_self a rest, (eq_of_beq hk).symm⟩
        · exact Or.inl hrest
      · exact Or.inr ⟨raw, List.mem_cons_of_mem a hmem, hext⟩

/-- One account-loop iteration keeps the in-memory map consistent with the
live table: every binding still names the id of the first
`(source, external_id)` match. -/
theorem accountStep_mapConsistent (provider ts : String) (uuid : Nat → String)
    (s : AccSyncState) (raw : RawAccount)
    (h : MapConsistent s.accounts provider s.idMap) :
    MapConsistent (accountStep provider ts uuid s raw).accounts provider
      (accountStep provider ts uuid s raw).idMap := by
  cases hfound : findAccountBy s.accounts provider raw.external_id with
  | some existing =>
      simp only [accountStep, hfound]
      intro e i hlookup
      have hcong := findAccountBy_map_key provider e
        (updateAccountRun s.accounts raw ts existing.id) s.accounts
        (updateAccountRun_map_key s.accounts raw ts existing.id)
      rw [hcong]
      cases he : (e == raw.external_id) with
      | true =>
          simp only [List.lookup, he, Option.some.injEq] at hlookup
          subst hlookup
          have hee : e = raw.external_id := eq_of_beq he
          rw [hee, hfound]
          rfl
      | false =>
          simp only [List.lookup, he] at hlookup
          exact h e i hlookup
  | none =>
      simp only [accountStep, hfound]
      intro e i hlookup
      cases he : (e == raw.external_id) with
      | true =>
          simp only [List.lookup, he, Option.some.injEq] at hlookup
          subst hlookup
          have hee : e = raw.external_id := eq_of_beq he
          subst hee
          have hnone := hfound
          simp only [findAccountBy] at hnone ⊢
          rw [find?_append_of_none _ _ _ hnone]
          simp [List.find?]
      | false =>
          simp only [List.lookup, he] at hlookup
          have hh := h e i hlookup
          simp only [findAccountBy] at hh ⊢
          obtain ⟨row, hrow, hid⟩ := Option.map_eq_some.mp hh
          rw [find?_append_of_some _ _ _ _ hrow]
          simpa using hid

/-- The whole account loop keeps the in-memory map consistent with the live
table. -/
theorem accFold_mapConsistent (provider ts : String) (uuid : Nat → String) :
    ∀ (raws : List RawAccount) (s : AccSyncState),
      MapConsistent s.accounts provider s.idMap →
      MapConsistent ((raws.foldl (accountStep provider ts uuid) s)).accounts
        provider ((raws.foldl (accountStep provider ts uuid) s)).idMap := by
  intro raws
  induction raws with
  | nil => intro s h; exact h
  | cons raw rest ih =>
      intro s h
      rw [List.foldl_cons]
      exact ih _ (accountStep_mapConsistent provider ts uuid s raw h)

/-- A second account-loop run over a table with the same key projection and
raw accounts that are all already matched takes only the found branch: it
preserves the key projection and never binds an external id to a different
local id than the first run did. -/
theorem accFold_second_run (provider ts2 : String) (uuid2 : Nat → String)
    (A1 : List AccountRow) (m1 : List (String × String)) :
    ∀ (raws : List RawAccount) (s : AccSyncState),
      s.accounts.map accountKey = A1.map accountKey →
      (∀ e, s.idMap.lookup e = none ∨ s.idMap.lookup e = m1.lookup e) →
      (∀ raw ∈ raws, ∃ i, m1.lookup raw.external_id = some i ∧
        Option.map AccountRow.id (findAccountBy A1 provider raw.external_id)
          = some i) →
      ((raws.foldl (accountStep provider ts2 uuid2) s).accounts.map accountKey
        = A1.map accountKey) ∧
      (∀ e, ((raws.foldl (accountStep provider ts2 uuid2) s).idMap).lookup e
          = none ∨
        ((raws.foldl (accountStep provider ts2 uuid2) s).idMap).lookup e
          = m1.lookup e) := by
  intro raws
  induction raws with
  | nil => intro s hkey hmap _; exact ⟨hkey, hmap⟩
  | cons a rest ih =>
      intro s hkey hmap hcov
      obtain ⟨i, hm1, hA1⟩ := hcov a (List.mem_cons_self a rest)
      have hcong := findAccountBy_map_key provider a.external_id
        s.accounts A1 hkey
      rw [← hcong] at hA1
      obtain ⟨row, hrow, hid⟩ := Option.map_eq_some.mp hA1
      rw [List.foldl_cons]
      have hstep : accountStep provider ts2 uuid2 s a =
          { s with accounts := updateAccountRun s.accounts a ts2 row.id,
                   idMap := (a.external_id, row.id) :: s.idMap,
                   synced := s.synced + 1,
                   writes := s.writes ++ [DbWrite.accountUpdate row.id] } := by
        simp only [accountStep, hrow]
      rw [hstep]
      apply ih
      · simpa [updateAccountRun_map_key] using hkey
      · intro e
        cases he : (e == a.external_id) with
        | true =>
            right
            have hee : e = a.external_id := eq_of_beq he
            subst hee
            simp [List.lookup, hm1, hid]
        | false =>
            simp only [List.lookup, he]
            exact hmap e
      · intro raw hmem
        exact hcov raw (List.mem_cons_of_mem a hmem)

/-- A stored transaction survives an `INSERT OR IGNORE`. -/
theorem insertTxOrIgnore_mem (txs : List TxRow) (row t : TxRow)
    (h : t ∈ txs) : t ∈ (insertTxOrIgnore txs row).1 := by
  simp only [insertTxOrIgnore]
  split
  · exact h
  · exact List.mem_append_left _ h

/-- A stored transaction survives one `added` iteration. -/
theorem addedTxStep_mem (provider ts : String) (u : Nat → String)
    (m : List (String × String)) (s : AddedTxState) (tx : RawTransaction)
    (t : TxRow) (h : t ∈ s.txs) :
    t ∈ (addedTxStep provider ts u m s tx).txs := by
  cases hres : resolveAccountId m tx.account_external_id with
  | none => simpa only [addedTxStep, hres] using h
  | some aid =>
      simp only [addedTxStep, hres]
      exact insertTxOrIgnore_mem _ _ _ h

/-- A stored transaction survives the whole `added` loop. -/
theorem addedFold_mem (provider ts : String) (u : Nat → String)
    (m : List (String × String)) :
    ∀ (added : List RawTransaction) (s : AddedTxState) (t : TxRow),
      t ∈ s.txs → t ∈ (added.foldl (addedTxStep provider ts u m) s).txs := by
  intro added
  induction added with
  | nil => intro s t h; exact h
  | cons tx rest ih =>
      intro s t h
      rw [List.foldl_cons]
      exact ih _ t (addedTxStep_mem provider ts u m s tx t h)

/-- Characterization of one resolved `added` iteration: the uuid counter
advances, and either the insert was ignored because some stored row collides
with the new row (on primary key or on the account-scoped unique key), or
the new row — carrying the fresh id, the resolved account and the upstream
external id — was appended. -/
theorem addedTxStep_char (provider ts : String) (u : Nat → String)
    (m : List (String × String)) (s : AddedTxState) (tx : RawTransaction)
    (aid : String)
    (hres : resolveAccountId m tx.account_external_id = some aid) :
    (addedTxStep provider ts u m s tx).counter = s.counter + 1 ∧
    (((addedTxStep provider ts u m s tx).txs = s.txs ∧
        ∃ t, t ∈ s.txs ∧ (t.id = u s.counter ∨
          (t.account_id = aid ∧ t.external_id = some tx.external_id))) ∨
      (∃ row : TxRow, row.id = u s.counter ∧ row.account_id = aid ∧
        row.external_id = some tx.external_id ∧
        (addedTxStep provider ts u m s tx).txs = s.txs ++ [row])) := by
  constructor
  · simp only [addedTxStep, hres]
  · simp only [addedTxStep, hres]
    generalize (if tx.pending = true then (1 : Nat) else 0) = pv
    simp only [insertTxOrIgnore]
    split
    next h =>
      left
      refine ⟨rfl, ?_⟩
      obtain ⟨t, ht, hor⟩ := List.any_eq_true.mp h
      refine ⟨t, ht, ?_⟩
      rcases Bool.or_eq_true_iff.mp hor with hid | hkey
      · left
        simpa using eq_of_beq hid
      · right
        simp only [sameTxKey, Bool.and_eq_true] at hkey
        obtain ⟨hacc, hext⟩ := hkey
        refine ⟨by simpa using eq_of_beq hacc, ?_⟩
        cases hte : t.external_id with
        | none => rw [hte] at hext; simp at hext
        | some e1 =>
            rw [hte] at hext
            simp only [] at hext
            have : e1 = tx.external_id := by
              have hb : (e1 == tx.external_id) = true := by
                simpa using hext
              exact eq_of_beq hb
            rw [this]
    next h =>
      right
      exact ⟨_, rfl, rfl, rfl, rfl⟩

/-- First-run postcondition of the `added` loop: when the generated row ids
are pairwise distinct and fresh for the pre-existing table, every added
transaction that resolves to an account finishes the loop with its
`(account_id, external_id)` slot occupied by some stored row. -/
theorem addedFold_run1 (provider ts : String) (u : Nat → String)
    (m : List (String × String)) (txs0 : List TxRow)
    (hinj : ∀ k l, u k = u l → k = l)
    (hfresh : ∀ k t, t ∈ txs0 → u k ≠ t.id) :
    ∀ (added : List RawTransaction) (s : AddedTxState),
      (∀ t ∈ s.txs, t ∈ txs0 ∨ ∃ j, j < s.counter ∧ t.id = u j) →
      ∀ tx ∈ added, ∀ aid,
        resolveAccountId m tx.account_external_id = some aid →
        KeyPresent (added.foldl (addedTxStep provider ts u m) s).txs aid
          tx.external_id := by
  intro added
  induction added with
  | nil => intro s _ tx hmem; simp at hmem
  | cons tx0 rest ih =>
      intro s hinv tx hmem aid hres
      rw [List.foldl_cons]
      cases hres0 : resolveAccountId m tx0.account_external_id with
      | none =>
          have hstep : addedTxStep provider ts u m s tx0 = s := by
            simp only [addedTxStep, hres0]
          rw [hstep]
          rcases List.mem_cons.mp hmem with h1 | h2
          · subst h1; rw [hres0] at hres; simp at hres
          · exact ih s hinv tx h2 aid hres
      | some a0 =>
          obtain ⟨hcnt, hchar⟩ :=
            addedTxStep_char provider ts u m s tx0 a0 hres0
          have hinvs : ∀ t ∈ (addedTxStep provider ts u m s tx0).txs,
              t ∈ txs0 ∨ ∃ j,
                j < (addedTxStep provider ts u m s tx0).counter ∧
                t.id = u j := by
            rw [hcnt]
            rcases hchar with ⟨htxs, -⟩ | ⟨row, hrid, -, -, htxs⟩ <;>
              rw [htxs] <;> intro t ht
            · rcases hinv t ht with h1 | ⟨j, hj, hjid⟩
              · exact Or.inl h1
              · exact Or.inr ⟨j, Nat.lt_succ_of_lt hj, hjid⟩
            · rcases List.mem_append.mp ht with h1 | h2
              · rcases hinv t h1 with ha | ⟨j, hj, hjid⟩
                · exact Or.inl ha
                · exact Or.inr ⟨j, Nat.lt_succ_of_lt hj, hjid⟩
              · have ht2 : t = row := by simpa using h2
                subst ht2
                exact Or.inr ⟨s.counter, Nat.lt_succ_self _, hrid⟩
          have hkp : KeyPresent (addedTxStep provider ts u m s tx0).txs a0
              tx0.external_id := by
            rcases hchar with ⟨htxs, t, ht, hor⟩ |
                ⟨row, hrid, hracc, hrext, htxs⟩
            · rcases hor with hid | ⟨hacc, hext⟩
              · exfalso
                rcases hinv t ht with h1 | ⟨j, hj, hjid⟩
                · exact hfresh s.counter t h1 hid.symm
                · have hj2 := hinj j s.counter (hjid.symm.trans hid)
                  omega
              · exact ⟨t, by rw [htxs]; exact ht, hacc, hext⟩
            · refine ⟨row, ?_, hracc, hrext⟩
              rw [htxs]
              exact List.mem_append_right _ (by simp)
          rcases List.mem_cons.mp hmem with h1 | h2
          · subst h1
            rw [hres0] at hres
            have haid : a0 = aid := by
              simpa using hres
            subst haid
            obtain ⟨t, ht, hta, hte⟩ := hkp
            exact ⟨t, addedFold_mem provider ts u m rest _ t ht, hta, hte⟩
          · exact ih _ hinvs tx h2 aid hres

/-- One resolved `added` iteration whose `(account_id, external_id)` slot is
already occupied is a no-op: the table is unchanged and nothing is counted. -/
theorem addedTxStep_count (provider ts : String) (u : Nat → String)
    (m : List (String × String)) (s : AddedTxState) (tx : RawTransaction)
    (aid : String)
    (hres : resolveAccountId m tx.account_external_id = some aid)
    (hdup : KeyPresent s.txs aid tx.external_id) :
    (addedTxStep provider ts u m s tx).txs = s.txs ∧
    (addedTxStep provider ts u m s tx).count = s.count := by
  obtain ⟨t, ht, ha, he⟩ := hdup
  simp only [addedTxStep, hres]
  generalize (if tx.pending = true then (1 : Nat) else 0) = pv
  simp only [insertTxOrIgnore]
  split
  next h => exact ⟨rfl, rfl⟩
  next h =>
    exfalso
    apply h
    apply List.any_eq_true.mpr
    refine ⟨t, ht, ?_⟩
    apply Bool.or_eq_true_iff.mpr
    right
    simp [sameTxKey, ha, he]

/-- A second `added` run all of whose resolving entries are already stored
inserts nothing and counts nothing. -/
theorem addedFold_allDup (provider ts : String) (u : Nat → String)
    (m : List (String × String)) :
    ∀ (added : List RawTransaction) (s : AddedTxState),
      (∀ tx ∈ added, ∀ aid,
        resolveAccountId m tx.account_external_id = some aid →
        KeyPresent s.txs aid tx.external_id) →
      (added.foldl (addedTxStep provider ts u m) s).txs = s.txs ∧
      (added.foldl (addedTxStep provider ts u m) s).count = s.count := by
  intro added
  induction added with
  | nil => intro s _; exact ⟨rfl, rfl⟩
  | cons tx rest ih =>
      intro s hdup
      rw [List.foldl_cons]
      cases hres : resolveAccountId m tx.account_external_id with
      | none =>
          have hstep : addedTxStep provider ts u m s tx = s := by
            simp only [addedTxStep, hres]
          rw [hstep]
          exact ih s (fun tx2 h2 => hdup tx2 (List.mem_cons_of_mem tx h2))
      | some aid =>
          obtain ⟨htxs, hcount⟩ := addedTxStep_count provider ts u m s tx aid
            hres (hdup tx (List.mem_cons_self tx rest) aid hres)
          have hrest := ih (addedTxStep provider ts u m s tx)
            (fun tx2 h2 aid2 hres2 => by
              rw [htxs]
              exact hdup tx2 (List.mem_cons_of_mem tx h2) aid2 hres2)
          exact ⟨hrest.1.trans htxs, hrest.2.trans hcount⟩

/-- Resolution through the per-pass map only reads the map's lookups. -/
theorem resolveAccountId_congr (m1 m2 : List (String × String))
    (h : ∀ e, m2.lookup e = m1.lookup e) :
    ∀ o : Option String, resolveAccountId m2 o = resolveAccountId m1 o := by
  intro o
  cases o with
  | none => rfl
  | some e => simp only [resolveAccountId, h e]

/-- Filtering by `(source, external_id)` commutes with the in-place account
update: the update touches neither column, so it maps the filtered rows. -/
theorem filter_key_updateAccountRun (l : List AccountRow) (raw : RawAccount)
    (ts i0 : String) (src : String) (ext : Option String) :
    (updateAccountRun l raw ts i0).filter
        (fun a => a.source == src && a.external_id == ext)
      = (l.filter (fun a => a.source == src && a.external_id == ext)).map
          (fun a => if a.id == i0 then
            { a with name := raw.name, institution := raw.institution,
                     type_ := raw.type_, currency := raw.currency.getD "USD",
                     balance := raw.balance, updated_at := ts }
          else a) := by
  simp only [updateAccountRun]
  rw [List.filter_map]
  refine congrArg _ (List.filter_congr ?_)
  intro a _
  by_cases h : (a.id == i0) = true <;> simp [Function.comp, h]

/-- C4: account reconciliation upserts by `(source, external_id)` in place.
First part: whenever a raw account matches an existing local row, the
iteration rewrites the mutable fields of that row by its id — the table's
ids, its length and the row's identity are untouched, and the in-memory map
binds the upstream external id to the existing local id. Second part: in the
two-sync scenario — the external id kept, the name changed upstream —
exactly one local account carries that `(source, external_id)` after each
sync, its local id is the same before and after, and after the second sync
it bears the new upstream name. -/
theorem c4_account_upsert_in_place :
    (∀ (provider ts : String) (uuid : Nat → String) (s : AccSyncState)
        (raw : RawAccount) (existing : AccountRow),
        findAccountBy s.accounts provider raw.external_id = some existing →
        (accountStep provider ts uuid s raw).accounts
            = updateAccountRun s.accounts raw ts existing.id ∧
        (accountStep provider ts uuid s raw).accounts.map AccountRow.id
            = s.accounts.map AccountRow.id ∧
        (accountStep provider ts uuid s raw).accounts.length
            = s.accounts.length ∧
        (accountStep provider ts uuid s raw).idMap
            = (raw.external_id, existing.id) :: s.idMap) ∧
    (∀ (db : DB) (id : String) (env1 env2 : SyncEnv)
        (conn : ProviderConnectionRow) (cred1 cred2 : String)
        (P1 P2 : DataProvider) (raw1 raw2 : RawAccount) (cur1 cur2 : String),
        db.connections.find? (fun c => c.id == id) = some conn →
        (∀ a ∈ db.accounts,
          (a.source == conn.provider
            && a.external_id == some raw1.external_id) = false) →
        env1.getCredential conn.keychain_key = some cred1 →
        env1.registryCreate conn.provider cred1
          { item_id := conn.item_id, institution_id := conn.institution_id,
            institution_name := conn.institution_name } = .ok P1 →
        P1.getAccounts = .ok [raw1] →
        P1.getTransactions conn.cursor = .ok
          { added := [], modified := [], removed := [],
            nextCursor := cur1 } →
        P1.getBalances = .ok [] →
        env2.getCredential conn.keychain_key = some cred2 →
        env2.registryCreate conn.provider cred2
          { item_id := conn.item_id, institution_id := conn.institution_id,
            institution_name := conn.institution_name } = .ok P2 →
        P2.getAccounts = .ok [raw2] →
        raw2.external_id = raw1.external_id →
        P2.getTransactions (some cur1) = .ok
          { added := [], modified := [], removed := [],
            nextCursor := cur2 } →
        P2.getBalances = .ok [] →
        (((syncConnection db id env1).1.accounts.filter (fun a =>
            a.source == conn.provider
              && a.external_id == some raw1.external_id)).map AccountRow.id
          = [env1.uuid 0]) ∧
        (((syncConnection (syncConnection db id env1).1 id
            env2).1.accounts.filter (fun a =>
            a.source == conn.provider
              && a.external_id == some raw1.external_id)).map AccountRow.id
          = [env1.uuid 0]) ∧
        (∀ a ∈ (syncConnection (syncConnection db id env1).1 id
            env2).1.accounts.filter (fun a =>
            a.source == conn.provider
              && a.external_id == some raw1.external_id),
          a.name = raw2.name)) := by
  constructor
  · intro provider ts uuid s raw existing hfound
    refine ⟨?_, ?_, ?_, ?_⟩
    · simp only [accountStep, hfound]
    · simp only [accountStep, hfound]
      exact updateAccountRun_map_id s.accounts raw ts existing.id
    · simp only [accountStep, hfound, updateAccountRun, List.length_map]
    · simp only [accountStep, hfound]
  · intro db id env1 env2 conn cred1 cred2 P1 P2 raw1 raw2 cur1 cur2
      hfind hfresh hcred1 hcreate1 hacc1 htx1 hbal1 hcred2 hcreate2 hacc2
      hext htx2 hbal2
    have e1 := syncConnection_ok_char db id env1 conn cred1 P1 [raw1]
      { added := [], modified := [], removed := [], nextCursor := cur1 } []
      hfind hcred1 hcreate1 hacc1 htx1 hbal1
    have hnone : findAccountBy db.accounts conn.provider raw1.external_id
        = none := by
      simp only [findAccountBy]
      apply List.find?_eq_none.mpr
      intro a ha
      simp [hfresh a ha]
    have hnoneF : db.accounts.find? (fun a =>
        a.source == conn.provider
          && a.external_id == some raw1.external_id) = none := hnone
    have hS1 : (syncConnection db id env1).1.accounts = db.accounts ++
        [{ id := env1.uuid 0, name := raw1.name,
           institution := raw1.institution, type_ := raw1.type_,
           currency := raw1.currency.getD "USD", balance := raw1.balance,
           source := conn.provider, external_id := some raw1.external_id,
           is_active := 1, connection_id := none, created_at := env1.ts,
           updated_at := env1.ts }] := by
      rw [e1]
      show (syncAccountsFold conn.provider env1.ts env1.uuid db.accounts
        [raw1]).accounts = _
      simp only [syncAccountsFold, List.foldl_cons, List.foldl_nil,
        accountStep, hnone]
    have h0 : db.accounts.filter (fun a =>
        a.source == conn.provider
          && a.external_id == some raw1.external_id) = [] :=
      List.filter_eq_nil_iff.mpr (fun a ha => by simp [hfresh a ha])
    have hfilter1 : (syncConnection db id env1).1.accounts.filter (fun a =>
        a.source == conn.provider
          && a.external_id == some raw1.external_id) =
        [{ id := env1.uuid 0, name := raw1.name,
           institution := raw1.institution, type_ := raw1.type_,
           currency := raw1.currency.getD "USD", balance := raw1.balance,
           source := conn.provider, external_id := some raw1.external_id,
           is_active := 1, connection_id := none, created_at := env1.ts,
           updated_at := env1.ts }] := by
      rw [hS1, List.filter_append, h0, List.nil_append]
      simp
    have hfind2 : (syncConnection db id env1).1.connections.find?
        (fun c => c.id == id) = some { conn with
          cursor := some cur1
          last_synced_at := some env1.ts
          updated_at := env1.ts } := by
      rw [e1]
      exact find?_updateConnRun db.connections id cur1 env1.ts conn hfind
    have e2 := syncConnection_ok_char (syncConnection db id env1).1 id env2
      { conn with
        cursor := some cur1
        last_synced_at := some env1.ts
        updated_at := env1.ts } cred2 P2 [raw2]
      { added := [], modified := [], removed := [], nextCursor := cur2 } []
      hfind2 hcred2 hcreate2 hacc2 htx2 hbal2
    have hfound2 : findAccountBy (syncConnection db id env1).1.accounts
        conn.provider raw2.external_id = some
        { id := env1.uuid 0, name := raw1.name,
          institution := raw1.institution, type_ := raw1.type_,
          currency := raw1.currency.getD "USD", balance := raw1.balance,
          source := conn.provider, external_id := some raw1.external_id,
          is_active := 1, connection_id := none, created_at := env1.ts,
          updated_at := env1.ts } := by
      rw [hext]
      simp only [findAccountBy]
      rw [hS1, find?_append_of_none _ _ _ hnoneF]
      exact List.find?_cons_of_pos _ (by simp)
    have hS2 : (syncConnection (syncConnection db id env1).1 id
        env2).1.accounts = updateAccountRun
          (syncConnection db id env1).1.accounts raw2 env2.ts
          (env1.uuid 0) := by
      rw [e2]
      show (syncAccountsFold conn.provider env2.ts env2.uuid
        (syncConnection db id env1).1.accounts [raw2]).accounts = _
      simp only [syncAccountsFold, List.foldl_cons, List.foldl_nil,
        accountStep, hfound2]
    refine ⟨?_, ?_, ?_⟩
    · rw [hfilter1]
      simp
    · rw [hS2, filter_key_updateAccountRun, hfilter1]
      simp
    · rw [hS2, filter_key_updateAccountRun, hfilter1]
      simp

/-- C4 witness: a concrete matched-row update, and the concrete two-sync
rename scenario — after both syncs exactly one local account carries
`("plaid", "a1")`, its id is the first generated uuid both times, and it
bears the new name after the second sync. -/
theorem c4_account_upsert_witness :
    ((accountStep "plaid" "ts" uuidRep
        { accounts := [exAccount "a1" "plaid" (some "e1") none], idMap := [],
          counter := 0, synced := 0, writes := [] }
        (exRawAccount "e1" "New")).accounts
      = updateAccountRun [exAccount "a1" "plaid" (some "e1") none]
          (exRawAccount "e1" "New") "ts" "a1") ∧
    (((syncConnection c4Db "c1" c4Env1).1.accounts.filter (fun a =>
        a.source == "plaid" && a.external_id == some "a1")).map AccountRow.id
      = [uuidRep 0]) ∧
    (((syncConnection (syncConnection c4Db "c1" c4Env1).1 "c1"
        c4Env2).1.accounts.filter (fun a =>
        a.source == "plaid" && a.external_id == some "a1")).map AccountRow.id
      = [uuidRep 0]) ∧
    (∀ a ∈ (syncConnection (syncConnection c4Db "c1" c4Env1).1 "c1"
        c4Env2).1.accounts.filter (fun a =>
        a.source == "plaid" && a.external_id == some "a1"),
      a.name = "New Name") := by
  have h1 := c4_account_upsert_in_place.1 "plaid" "ts" uuidRep
    { accounts := [exAccount "a1" "plaid" (some "e1") none], idMap := [],
      counter := 0, synced := 0, writes := [] }
    (exRawAccount "e1" "New") (exAccount "a1" "plaid" (some "e1") none) rfl
  have h2 := c4_account_upsert_in_place.2 c4Db "c1" c4Env1 c4Env2
    (exConn "c1" "plaid") "cred" "cred" c4Provider1 c4Provider2
    (exRawAccount "a1" "Old Name") (exRawAccount "a1" "New Name")
    "c4a" "c4b" rfl (by intro a ha; simp [c4Db] at ha)
    rfl rfl rfl rfl rfl rfl rfl rfl rfl rfl rfl
  exact ⟨h1.1, h2.1, h2.2.1, h2.2.2⟩

/-- C3 counterexample: a provider whose data is constant across calls — the
same transaction reported in both `added` and `modified`, as the spec's
"no upstream changes" allows — makes the second sync report
`transactions_modified = 1`, not `0`: the modified-loop `UPDATE` matches the
stored row again and `changes > 0` is counted as a modification. Both calls
succeed and the stored cursor is unchanged. -/
theorem c3_resync_counterexample :
    (syncConnection (syncConnection c3Db "c1" c3Env1).1 "c1" c3Env2).2.2
      = .ok { provider := "plaid", institution_name := some "Bank",
              accounts_synced := 1, transactions_added := 0,
              transactions_modified := 1, transactions_removed := 0,
              last_synced_at := "ts2" } := by decide

/-- The modelled `crypto.randomUUID` stream is injective. -/
theorem uuidRep_inj : ∀ k l, uuidRep k = uuidRep l → k = l := by
  intro k l h
  have hd := congrArg String.data h
  simp only [uuidRep] at hd
  have hlen := congrArg List.length hd
  simp only [List.length_replicate] at hlen
  omega

/-- C3 (amended): re-syncing with unchanged upstream data is idempotent for
a provider that reports deltas honestly — constant accounts and `added`,
empty `modified` and `removed` — provided the generated row ids of the
first sync are pairwise distinct and fresh for the stored table. The second
sync then succeeds with zero transactions added, modified and removed, and
the stored cursor equals the cursor stored by the first sync. -/
theorem c3_resync_idempotent (db : DB) (id : String) (env1 env2 : SyncEnv)
    (conn : ProviderConnectionRow) (cred1 cred2 : String)
    (P1 P2 : DataProvider) (raws : List RawAccount) (F : TxSyncResult)
    (bals1 bals2 : List RawBalance)
    (hfind : db.connections.find? (fun c => c.id == id) = some conn)
    (hcred1 : env1.getCredential conn.keychain_key = some cred1)
    (hcreate1 : env1.registryCreate conn.provider cred1
      { item_id := conn.item_id, institution_id := conn.institution_id,
        institution_name := conn.institution_name } = .ok P1)
    (hacc1 : P1.getAccounts = .ok raws)
    (htx1 : P1.getTransactions conn.cursor = .ok F)
    (hbal1 : P1.getBalances = .ok bals1)
    (hmod : F.modified = []) (hrem : F.removed = [])
    (hcred2 : env2.getCredential conn.keychain_key = some cred2)
    (hcreate2 : env2.registryCreate conn.provider cred2
      { item_id := conn.item_id, institution_id := conn.institution_id,
        institution_name := conn.institution_name } = .ok P2)
    (hacc2 : P2.getAccounts = .ok raws)
    (htx2 : P2.getTransactions (some F.nextCursor) = .ok F)
    (hbal2 : P2.getBalances = .ok bals2)
    (hinj : ∀ k l, env1.uuid k = env1.uuid l → k = l)
    (hfresh : ∀ k t, t ∈ db.transactions → env1.uuid k ≠ t.id) :
    ∃ res : SyncConnectionResult,
      (syncConnection (syncConnection db id env1).1 id env2).2.2
        = .ok res ∧
      res.transactions_added = 0 ∧ res.transactions_modified = 0 ∧
      res.transactions_removed = 0 ∧
      Option.map ProviderConnectionRow.cursor
        ((syncConnection (syncConnection db id env1).1 id
          env2).1.connections.find? (fun c => c.id == id))
        = Option.map ProviderConnectionRow.cursor
          ((syncConnection db id env1).1.connections.find?
            (fun c => c.id == id)) := by
  have e1 := syncConnection_ok_char db id env1 conn cred1 P1 raws F bals1
    hfind hcred1 hcreate1 hacc1 htx1 hbal1
  have hfind2 : (syncConnection db id env1).1.connections.find?
      (fun c => c.id == id) = some { conn with
        cursor := some F.nextCursor
        last_synced_at := some env1.ts
        updated_at := env1.ts } := by
    rw [e1]
    exact find?_updateConnRun db.connections id F.nextCursor env1.ts conn
      hfind
  have e2 := syncConnection_ok_char (syncConnection db id env1).1 id env2
    { conn with
      cursor := some F.nextCursor
      last_synced_at := some env1.ts
      updated_at := env1.ts } cred2 P2 raws F bals2
    hfind2 hcred2 hcreate2 hacc2 htx2 hbal2
  -- run-1 map facts
  have hcons1 : MapConsistent
      (syncAccountsFold conn.provider env1.ts env1.uuid db.accounts
        raws).accounts conn.provider
      (syncAccountsFold conn.provider env1.ts env1.uuid db.accounts
        raws).idMap := by
    simp only [syncAccountsFold]
    apply accFold_mapConsistent
    intro e i h
    simp [List.lookup] at h
  have hcov1 : ∀ raw ∈ raws,
      (((syncAccountsFold conn.provider env1.ts env1.uuid db.accounts
        raws).idMap).lookup raw.external_id).isSome = true := by
    simp only [syncAccountsFold]
    intro raw hr
    exact accFold_covers conn.provider env1.ts env1.uuid raws _ raw hr
  have hdom1 : ∀ e,
      (((syncAccountsFold conn.provider env1.ts env1.uuid db.accounts
        raws).idMap).lookup e).isSome = true →
      ∃ raw ∈ raws, raw.external_id = e := by
    simp only [syncAccountsFold]
    intro e h
    rcases accFold_dom conn.provider env1.ts env1.uuid raws _ e h with
      h1 | h2
    · simp [List.lookup] at h1
    · exact h2
  -- the first sync's accounts table has the same key projection as the
  -- account-loop output (balances only touch `balance`/`updated_at`)
  have hkey1 : (syncConnection db id env1).1.accounts.map accountKey
      = (syncAccountsFold conn.provider env1.ts env1.uuid db.accounts
          raws).accounts.map accountKey := by
    rw [e1]
    show ((syncBalancesFold env1.ts
        (syncAccountsFold conn.provider env1.ts env1.uuid db.accounts
          raws).idMap
        (syncAccountsFold conn.provider env1.ts env1.uuid db.accounts
          raws).accounts bals1).1).map accountKey = _
    simp only [syncBalancesFold]
    exact syncBalancesFold_map_key env1.ts _ bals1 _
  -- run 2 of the account loop binds every external id to the same local id
  have hrun2 := accFold_second_run conn.provider env2.ts env2.uuid
    (syncAccountsFold conn.provider env1.ts env1.uuid db.accounts
      raws).accounts
    (syncAccountsFold conn.provider env1.ts env1.uuid db.accounts
      raws).idMap raws
    { accounts := (syncConnection db id env1).1.accounts, idMap := [],
      counter := 0, synced := 0, writes := [] }
    hkey1 (fun e => Or.inl rfl)
    (by
      intro raw hr
      obtain ⟨i, hi⟩ := Option.isSome_iff_exists.mp (hcov1 raw hr)
      exact ⟨i, hi, hcons1 raw.external_id i hi⟩)
  have hagree : ∀ e,
      (((syncAccountsFold conn.provider env2.ts env2.uuid
        (syncConnection db id env1).1.accounts raws).idMap).lookup e)
      = (((syncAccountsFold conn.provider env1.ts env1.uuid db.accounts
        raws).idMap).lookup e) := by
    simp only [syncAccountsFold]
    intro e
    rcases hrun2.2 e with h1 | h2
    · cases hm1 : (((List.foldl (accountStep conn.provider env1.ts env1.uuid)
          { accounts := db.accounts, idMap := [], counter := 0, synced := 0,
            writes := [] } raws).idMap).lookup e) with
      | none => rw [h1]
      | some i =>
          exfalso
          have hd := hdom1 e
          simp only [syncAccountsFold] at hd
          obtain ⟨raw, hrm, hre⟩ := hd (by rw [hm1]; rfl)
          have hc2 := accFold_covers conn.provider env2.ts env2.uuid raws
            { accounts := (syncConnection db id env1).1.accounts,
              idMap := [], counter := 0, synced := 0, writes := [] } raw hrm
          rw [hre, h1] at hc2
          simp at hc2
    · exact h2
  have hresolve := resolveAccountId_congr
    (syncAccountsFold conn.provider env1.ts env1.uuid db.accounts raws).idMap
    (syncAccountsFold conn.provider env2.ts env2.uuid
      (syncConnection db id env1).1.accounts raws).idMap hagree
  -- the first sync's transaction table is the added-loop output
  have htx1eq : (syncConnection db id env1).1.transactions
      = (syncAddedFold conn.provider env1.ts env1.uuid
          (syncAccountsFold conn.provider env1.ts env1.uuid db.accounts
            raws).idMap db.transactions
          (syncAccountsFold conn.provider env1.ts env1.uuid db.accounts
            raws).counter F.added).txs := by
    rw [e1]
    show (syncRemovedFold conn.provider
      (syncModifiedFold env1.ts
        (syncAccountsFold conn.provider env1.ts env1.uuid db.accounts
          raws).idMap
        (syncAddedFold conn.provider env1.ts env1.uuid
          (syncAccountsFold conn.provider env1.ts env1.uuid db.accounts
            raws).idMap db.transactions
          (syncAccountsFold conn.provider env1.ts env1.uuid db.accounts
            raws).counter F.added).txs F.modified).txs F.removed).txs = _
    rw [hmod, hrem]
    rfl
  -- every resolving added entry occupies its slot after the first sync
  have hkp : ∀ tx ∈ F.added, ∀ aid,
      resolveAccountId (syncAccountsFold conn.provider env1.ts env1.uuid
        db.accounts raws).idMap tx.account_external_id = some aid →
      KeyPresent (syncConnection db id env1).1.transactions aid
        tx.external_id := by
    intro tx htx aid hr
    rw [htx1eq]
    simp only [syncAddedFold]
    exact addedFold_run1 conn.provider env1.ts env1.uuid
      (syncAccountsFold conn.provider env1.ts env1.uuid db.accounts
        raws).idMap db.transactions hinj hfresh F.added _
      (fun t ht => Or.inl ht) tx htx aid hr
  have hdup2 : ∀ tx ∈ F.added, ∀ aid,
      resolveAccountId (syncAccountsFold conn.provider env2.ts env2.uuid
        (syncConnection db id env1).1.accounts raws).idMap
        tx.account_external_id = some aid →
      KeyPresent (syncConnection db id env1).1.transactions aid
        tx.external_id := by
    intro tx ht aid hr
    rw [hresolve tx.account_external_id] at hr
    exact hkp tx ht aid hr
  have hadded0 : (syncAddedFold conn.provider env2.ts env2.uuid
      (syncAccountsFold conn.provider env2.ts env2.uuid
        (syncConnection db id env1).1.accounts raws).idMap
      (syncConnection db id env1).1.transactions
      (syncAccountsFold conn.provider env2.ts env2.uuid
        (syncConnection db id env1).1.accounts raws).counter
      F.added).count = 0 := by
    simp only [syncAddedFold]
    exact (addedFold_allDup conn.provider env2.ts env2.uuid
      (syncAccountsFold conn.provider env2.ts env2.uuid
        (syncConnection db id env1).1.accounts raws).idMap F.added _
      hdup2).2
  have hmod0 : (syncModifiedFold env2.ts
      (syncAccountsFold conn.provider env2.ts env2.uuid
        (syncConnection db id env1).1.accounts raws).idMap
      (syncAddedFold conn.provider env2.ts env2.uuid
        (syncAccountsFold conn.provider env2.ts env2.uuid
          (syncConnection db id env1).1.accounts raws).idMap
        (syncConnection db id env1).1.transactions
        (syncAccountsFold conn.provider env2.ts env2.uuid
          (syncConnection db id env1).1.accounts raws).counter
        F.added).txs F.modified).count = 0 := by
    rw [hmod]
    rfl
  have hrem0 : (syncRemovedFold conn.provider
      (syncModifiedFold env2.ts
        (syncAccountsFold conn.provider env2.ts env2.uuid
          (syncConnection db id env1).1.accounts raws).idMap
        (syncAddedFold conn.provider env2.ts env2.uuid
          (syncAccountsFold conn.provider env2.ts env2.uuid
            (syncConnection db id env1).1.accounts raws).idMap
          (syncConnection db id env1).1.transactions
          (syncAccountsFold conn.provider env2.ts env2.uuid
            (syncConnection db id env1).1.accounts raws).counter
          F.added).txs F.modified).txs F.removed).count = 0 := by
    rw [hrem]
    rfl
  have hcur : Option.map ProviderConnectionRow.cursor
      ((syncConnection (syncConnection db id env1).1 id
        env2).1.connections.find? (fun c => c.id == id))
      = Option.map ProviderConnectionRow.cursor
        ((syncConnection db id env1).1.connections.find?
          (fun c => c.id == id)) := by
    have hfind3 : (syncConnection (syncConnection db id env1).1 id
        env2).1.connections.find? (fun c => c.id == id)
        = some { { conn with
            cursor := some F.nextCursor
            last_synced_at := some env1.ts
            updated_at := env1.ts } with
          cursor := some F.nextCursor
          last_synced_at := some env2.ts
          updated_at := env2.ts } := by
      rw [e2]
      exact find?_updateConnRun (syncConnection db id env1).1.connections id
        F.nextCursor env2.ts _ hfind2
    rw [hfind3, hfind2]
    simp
  exact ⟨_, (congrArg (fun x => x.2.2) e2).trans rfl, hadded0, hmod0,
    hrem0, hcur⟩

/-- C3 witness: a concrete delta-honest constant provider re-synced under
the same environment — the second sync reports 0/0/0 and keeps the stored
cursor. -/
theorem c3_resync_witness :
    ∃ res : SyncConnectionResult,
      (syncConnection (syncConnection c3Db "c1" c3wEnv).1 "c1" c3wEnv).2.2
        = .ok res ∧
      res.transactions_added = 0 ∧ res.transactions_modified = 0 ∧
      res.transactions_removed = 0 ∧
      Option.map ProviderConnectionRow.cursor
        ((syncConnection (syncConnection c3Db "c1" c3wEnv).1 "c1"
          c3wEnv).1.connections.find? (fun c => c.id == "c1"))
        = Option.map ProviderConnectionRow.cursor
          ((syncConnection c3Db "c1" c3wEnv).1.connections.find?
            (fun c => c.id == "c1")) :=
  c3_resync_idempotent c3Db "c1" c3wEnv c3wEnv (exConn "c1" "plaid")
    "cred" "cred" c3wProvider c3wProvider [exRawAccount "a1" "A"]
    { added := [exRawTx "t1" "a1"], modified := [], removed := [],
      nextCursor := "curw" } [] [] rfl rfl rfl rfl rfl rfl rfl rfl rfl rfl
    rfl rfl rfl uuidRep_inj (by intro k t ht; simp [c3Db] at ht)

end BudgetClaw
